import Mathlib

/-!
Verification development for the Vy semantic-memory core.

This file gives a shallow embedding, in Lean 4, of the storage-and-retrieval
engine of the Vy repository:

* `ChromaMemoryStore` (chroma-memory-store.ts): `storeMemory`, `storeMemories`,
  `getMemory`, `updateMemory`, `searchMemories`, `reprocessFailedEmbeddings`,
  `getFailedEmbeddings`, and the `Memory` ⇄ `ChromaDocument` conversions.
* `OpenAIEmbeddingService` (openai-embedding-service.ts): `generateEmbeddings`,
  `processBatches`, `callOpenAIEmbeddings`.
* `MemoryService` (memory-service.ts): `captureConversation`, `searchMemory`,
  `getContext` and their helpers.

Modelling conventions:

* JavaScript numbers are modelled as `ℚ` (the arithmetic in scope is exact);
  JS string/array lengths and timestamps as `Nat`.
* External collaborators are oracles: the embedding provider is a function
  `String → Except String (List ℚ)`; the document-store client's write calls
  (`addDocuments`/`updateDocuments`) consume a list of injected outcomes
  (`World.writes`, one `Option String` per call, `none` = success, an exhausted
  list = all further writes succeed); read calls are modelled as pure lookups
  in `World.docs`.  Every write call is also logged in `World.calls`.
* A thrown JS exception is an `Option String`/`Except String` error value;
  `String(error)` is the identity on these modelled error strings.
* JS truthiness tests (`x || d`, `if (x)`) are modelled by the `jsOr*` /
  `jsTruthy*` helpers below, which treat `0` and `""` as falsy, exactly like
  the source.
-/

namespace Vy

instance {ε α : Type} [DecidableEq ε] [DecidableEq α] : DecidableEq (Except ε α) :=
  fun a b =>
    match a, b with
    | .ok x, .ok y => if h : x = y then .isTrue (by rw [h]) else .isFalse (by simp [h])
    | .error e, .error f => if h : e = f then .isTrue (by rw [h]) else .isFalse (by simp [h])
    | .ok _, .error _ => .isFalse (by simp)
    | .error _, .ok _ => .isFalse (by simp)

/-! ## JavaScript-semantics helpers -/

/-- JS `o || d` on an optional string: `undefined` and `""` are falsy. -/
def jsOrStr (o : Option String) (d : String) : String :=
  match o with
  | none => d
  | some s => if s = "" then d else s

/-- JS `o || d` on an optional number holding a `Nat`: `undefined` and `0` are falsy. -/
def jsOrNat (o : Option Nat) (d : Nat) : Nat :=
  match o with
  | none => d
  | some n => if n = 0 then d else n

/-- JS `o || d` on an optional number holding a `ℚ`: `undefined` and `0` are falsy. -/
def jsOrRat (o : Option ℚ) (d : ℚ) : ℚ :=
  match o with
  | none => d
  | some q => if q = 0 then d else q

/-- JS truthiness of an optional string (`if (x)`). -/
def jsTruthyStr (o : Option String) : Bool :=
  match o with
  | none => false
  | some s => decide (s ≠ "")

/-- JS truthiness of an optional number holding a `Nat`. -/
def jsTruthyNat (o : Option Nat) : Bool :=
  match o with
  | none => false
  | some n => decide (n ≠ 0)

/-- JS truthiness of an optional number holding a `ℚ`. -/
def jsTruthyRat (o : Option ℚ) : Bool :=
  match o with
  | none => false
  | some q => decide (q ≠ 0)

/-- JS `String.prototype.trim` (whitespace stripped from both ends). -/
def jsTrim (s : String) : String :=
  ⟨((s.data.dropWhile Char.isWhitespace).reverse.dropWhile Char.isWhitespace).reverse⟩

/-! ## Data model (core/types and chroma-memory-store.ts) -/

/-- `MemoryType` from `@repo/core`. -/
inductive MemoryType
  | conversation
  | insight
  | learning
  | fact
  | action_item
  deriving DecidableEq, Repr

/-- The `ConversationMemory`-specific payload (`participants`, `messageCount`,
`tags`).  (`summary` is accepted by `captureConversation` but never serialized
by `memoryToDocument`, so it is not part of the model.) -/
structure ConvFields where
  participants : List String
  messageCount : Nat
  tags : List String
  deriving DecidableEq, Repr

/-- A domain `Memory`.  `id` is `Option` because `storeMemory` accepts memories
whose `id` is still absent; `conv` carries the conversation-specific payload
when present.  User `metadata` is an open key/value map assumed disjoint from
the reserved keys (`type`, `timestamp`, `participants`, `messageCount`,
`tags`). -/
structure Memory where
  id : Option String
  type : MemoryType
  content : String
  timestamp : Nat
  metadata : List (String × String)
  embedding : Option (List ℚ)
  conv : Option ConvFields
  deriving DecidableEq, Repr

/-- `FailedEmbedding` record from chroma-memory-store.ts. -/
structure FailedEmbedding where
  memoryId : String
  content : String
  timestamp : Nat
  error : String
  retryCount : Nat
  deriving DecidableEq, Repr

/-- The metadata object stored on a `ChromaDocument` by `memoryToDocument`:
the reserved keys (`type`, `timestamp`, and the conversation payload when the
memory is a conversation) plus the user metadata spread. -/
structure DocMeta where
  type : MemoryType
  timestamp : Nat
  conv : Option ConvFields
  user : List (String × String)
  deriving DecidableEq, Repr

/-- `ChromaDocument` from chroma-client.ts. -/
structure ChromaDocument where
  id : String
  embedding : List ℚ
  document : String
  metadata : DocMeta
  deriving DecidableEq, Repr

/-- The mutable state visible to `ChromaMemoryStore`, plus the injected
document-store write outcomes and a log of write calls made to the
document-store client. -/
structure World where
  docs : List ChromaDocument
  failed : List FailedEmbedding
  writes : List (Option String)
  calls : List String
  deriving DecidableEq, Repr

/-- `BatchOperationResult` from `@repo/core`: `failed` entries pair an id with
an error string. -/
structure BatchOperationResult where
  successful : List String
  failed : List (String × String)
  totalProcessed : Nat
  deriving DecidableEq, Repr

/-! ## Association-list primitives for the document collection and the
failed-embeddings `Map` -/

/-- Lookup of a document by id (`getDocuments(collection, [id])`). -/
def docLookup (i : String) (docs : List ChromaDocument) : Option ChromaDocument :=
  docs.find? (fun d => d.id = i)

/-- Insert-or-replace of a document by id. -/
def upsertDoc (d : ChromaDocument) : List ChromaDocument → List ChromaDocument
  | [] => [d]
  | x :: rest => if x.id = d.id then d :: rest else x :: upsertDoc d rest

/-- `failedEmbeddings.get(id)`. -/
def lookupFailed (i : String) (l : List FailedEmbedding) : Option FailedEmbedding :=
  l.find? (fun f => f.memoryId = i)

/-- `failedEmbeddings.set(id, r)` — replaces in place, else appends, exactly
like a JS `Map`. -/
def setFailed (r : FailedEmbedding) : List FailedEmbedding → List FailedEmbedding
  | [] => [r]
  | f :: rest => if f.memoryId = r.memoryId then r :: rest else f :: setFailed r rest

/-- `failedEmbeddings.delete(id)`. -/
def removeFailed (i : String) (l : List FailedEmbedding) : List FailedEmbedding :=
  l.filter (fun f => f.memoryId ≠ i)

/-! ## Memory ⇄ ChromaDocument conversion (chroma-memory-store.ts) -/

/-- `ChromaMemoryStore.memoryToDocument`.  For a conversation the payload
defaults follow `(memory as any).participants || []` etc. -/
def memoryToDocument (m : Memory) (embedding : List ℚ) : ChromaDocument :=
  { id := m.id.getD ""
    embedding := embedding
    document := m.content
    metadata :=
      { type := m.type
        timestamp := m.timestamp
        conv := if m.type = .conversation then some (m.conv.getD ⟨[], 0, []⟩) else none
        user := m.metadata } }

/-- `ChromaMemoryStore.documentToMemory`.  The destructuring strips
`participants`/`messageCount`/`tags` from the open metadata for every type but
re-attaches them (with defaults) only for conversations; an empty stored
embedding becomes an absent one. -/
def documentToMemory (doc : ChromaDocument) : Memory :=
  { id := some doc.id
    type := doc.metadata.type
    content := doc.document
    timestamp := doc.metadata.timestamp
    metadata := doc.metadata.user
    embedding := if doc.embedding.length > 0 then some doc.embedding else none
    conv :=
      if doc.metadata.type = .conversation then some (doc.metadata.conv.getD ⟨[], 0, []⟩)
      else none }

/-- The §3 invariant of the spec: the type-specific payload corresponds to
`type` (a conversation carries a payload, nothing else does). -/
def wellFormedMemory (m : Memory) : Bool :=
  if m.type = .conversation then m.conv.isSome else m.conv.isNone

/-! ## Document-store client write model -/

/-- Consume the next injected write outcome; an exhausted list means the store
is healthy and the write succeeds. -/
def popWrite (w : World) : Option String × World :=
  match w.writes with
  | [] => (none, w)
  | r :: rest => (r, { w with writes := rest })

/-- `chromaClient.addDocuments(collection, [doc])`: on success the document is
upserted; on failure the collection is untouched.  The call is logged. -/
def addDocuments (doc : ChromaDocument) (w : World) : Option String × World :=
  let p := popWrite w
  let w1 := { p.2 with calls := p.2.calls ++ ["addDocuments"] }
  match p.1 with
  | none => (none, { w1 with docs := upsertDoc doc w1.docs })
  | some e => (some e, w1)

/-- `chromaClient.updateDocuments(collection, [doc])`, same write model. -/
def updateDocuments (doc : ChromaDocument) (w : World) : Option String × World :=
  let p := popWrite w
  let w1 := { p.2 with calls := p.2.calls ++ ["updateDocuments"] }
  match p.1 with
  | none => (none, { w1 with docs := upsertDoc doc w1.docs })
  | some e => (some e, w1)

/-! ## ChromaMemoryStore operations -/

/-- The `catch (embeddingError)` block of `storeMemory`: store the document
with an empty embedding, and on success of that write track the failure with
`retryCount = 0`.  `failure` is the stringified caught error. -/
def storeMemoryOnEmbeddingError (mI : Memory) (failure : String) (now : Nat)
    (memoryId : String) (w : World) : Option String × World :=
  let doc := memoryToDocument mI []
  let rec0 : FailedEmbedding :=
    { memoryId := memoryId, content := mI.content, timestamp := now
      error := failure, retryCount := 0 }
  let p := addDocuments doc w
  match p.1 with
  | none => (none, { p.2 with failed := setFailed rec0 p.2.failed })
  | some e2 => (some e2, p.2)

/-- `ChromaMemoryStore.storeMemory`.  The result's first component is the
thrown error, if any (`none` = the call returned normally).  `genId` is the
UUID v7 the store would generate for a missing id; `now` is `new Date()`.
Note that the single `try` wraps both the embedding call and the
`addDocuments` call, so a failed document write is caught by the
embedding-failure handler as well. -/
def storeMemory (embed : String → Except String (List ℚ)) (genId : String) (now : Nat)
    (m : Memory) (w : World) : Option String × World :=
  let memoryId := jsOrStr m.id genId
  let mI := { m with id := some memoryId }
  match embed m.content with
  | .ok emb =>
      let doc := memoryToDocument mI emb
      let p := addDocuments doc w
      match p.1 with
      | none => (none, { p.2 with failed := removeFailed memoryId p.2.failed })
      | some e => storeMemoryOnEmbeddingError mI e now memoryId p.2
  | .error e => storeMemoryOnEmbeddingError mI e now memoryId w

/-- `ChromaMemoryStore.getMemory` (reads are modelled as pure lookups). -/
def getMemory (i : String) (w : World) : Option Memory :=
  (docLookup i w.docs).map documentToMemory

/-- `ChromaMemoryStore.getFailedEmbeddings`: snapshot of the failure table. -/
def getFailedEmbeddings (w : World) : List FailedEmbedding :=
  w.failed

/-- The loop body fold of `storeMemories`; `i` indexes into the id generator. -/
def storeMemoriesGo (embed : String → Except String (List ℚ)) (genIds : Nat → String)
    (now : Nat) : List Memory → Nat → World → (List String × List (String × String)) × World
  | [], _, w => (([], []), w)
  | m :: rest, i, w =>
      let p := storeMemory embed (genIds i) now m w
      let q := storeMemoriesGo embed genIds now rest (i + 1) p.2
      match p.1 with
      | none => ((jsOrStr m.id "unknown" :: q.1.1, q.1.2), q.2)
      | some e => ((q.1.1, (jsOrStr m.id "unknown", e) :: q.1.2), q.2)

/-- `ChromaMemoryStore.storeMemories`: items are processed independently, and
each item is reported under `memory.id || 'unknown'`. -/
def storeMemories (embed : String → Except String (List ℚ)) (genIds : Nat → String)
    (now : Nat) (ms : List Memory) (w : World) : BatchOperationResult × World :=
  let q := storeMemoriesGo embed genIds now ms 0 w
  ({ successful := q.1.1, failed := q.1.2, totalProcessed := ms.length }, q.2)

/-- The fields of `Partial<Memory>` that `updateMemory` is exercised with in
this development (the spread `{...existing, ...updates, id}` keeps an absent
field's existing value). -/
structure MemoryUpdates where
  content : Option String
  metadata : Option (List (String × String))
  timestamp : Option Nat
  deriving DecidableEq, Repr

/-- The merge `{ ...existing, ...updates, id }`. -/
def mergeUpdates (existing : Memory) (u : MemoryUpdates) (i : String) : Memory :=
  { existing with
    id := some i
    content := u.content.getD existing.content
    metadata := u.metadata.getD existing.metadata
    timestamp := u.timestamp.getD existing.timestamp }

/-- `ChromaMemoryStore.updateMemory`.  The embedding is regenerated only when
`updates.content` is truthy and differs from the existing content; a failed
regeneration sets a failure record with
`retryCount = (failedEmbeddings.get(id)?.retryCount || 0) + 1`. -/
def updateMemory (embed : String → Except String (List ℚ)) (now : Nat) (i : String)
    (u : MemoryUpdates) (w : World) : Option String × World :=
  match getMemory i w with
  | none => (some ("Memory " ++ i ++ " not found"), w)
  | some existing =>
      let updated := mergeUpdates existing u i
      let r :=
        if jsTruthyStr u.content ∧ u.content ≠ some existing.content then
          match embed (u.content.getD "") with
          | .ok e => (e, { w with failed := removeFailed i w.failed })
          | .error err =>
              let prior := ((lookupFailed i w.failed).map (·.retryCount)).getD 0
              let f1 : FailedEmbedding :=
                { memoryId := i, content := u.content.getD "", timestamp := now
                  error := err, retryCount := prior + 1 }
              (existing.embedding.getD [], { w with failed := setFailed f1 w.failed })
        else (existing.embedding.getD [], w)
      let p := updateDocuments (memoryToDocument updated r.1) r.2
      match p.1 with
      | none => (none, p.2)
      | some e => (some ("Failed to update memory " ++ i ++ ": " ++ e), p.2)

/-- One iteration step of `reprocessFailedEmbeddings` over the snapshot of
tracked failures, returning the accumulated `(successful, failed)` report
lists. -/
def reprocessGo (embed : String → Except String (List ℚ)) (maxRetries : Nat) :
    List FailedEmbedding → World → (List String × List (String × String)) × World
  | [], w => (([], []), w)
  | f :: rest, w =>
      if maxRetries ≤ f.retryCount then
        let q := reprocessGo embed maxRetries rest w
        ((q.1.1, (f.memoryId, "Max retries (" ++ toString maxRetries ++ ") exceeded") :: q.1.2),
          q.2)
      else
        match embed f.content with
        | .ok emb =>
            match getMemory f.memoryId w with
            | some mem =>
                let p := updateDocuments (memoryToDocument mem emb) w
                match p.1 with
                | none =>
                    let w1 := { p.2 with failed := removeFailed f.memoryId p.2.failed }
                    let q := reprocessGo embed maxRetries rest w1
                    ((f.memoryId :: q.1.1, q.1.2), q.2)
                | some e =>
                    let f1 := { f with retryCount := f.retryCount + 1, error := e }
                    let w1 := { p.2 with failed := setFailed f1 p.2.failed }
                    let q := reprocessGo embed maxRetries rest w1
                    ((q.1.1, (f.memoryId, e) :: q.1.2), q.2)
            | none =>
                -- `if (memory)` has no else branch: the entry is reported in
                -- neither list and the failure table is untouched.
                reprocessGo embed maxRetries rest w
        | .error e =>
            let f1 := { f with retryCount := f.retryCount + 1, error := e }
            let w1 := { w with failed := setFailed f1 w.failed }
            let q := reprocessGo embed maxRetries rest w1
            ((q.1.1, (f.memoryId, e) :: q.1.2), q.2)

/-- `ChromaMemoryStore.reprocessFailedEmbeddings(maxRetries = 3)`.
`totalProcessed` is the failure-table size at entry. -/
def reprocessFailedEmbeddings (embed : String → Except String (List ℚ)) (maxRetries : Nat)
    (w : World) : BatchOperationResult × World :=
  let q := reprocessGo embed maxRetries w.failed w
  ({ successful := q.1.1, failed := q.1.2, totalProcessed := w.failed.length }, q.2)

/-! ## Snippet generation and string helpers (chroma-memory-store.ts) -/

/-- ASCII lower-casing, the fragment of `String.prototype.toLowerCase` these
sources exercise. -/
def jsToLower (s : String) : String :=
  ⟨s.data.map Char.toLower⟩

/-- Fuel-driven worker for `jsSplitWs` (structural recursion so that concrete
inputs evaluate inside the kernel; the fuel `s.length + 1` always suffices). -/
def splitWsFuel : Nat → List Char → List Char → List String
  | 0, _, cur => [String.mk cur.reverse]
  | _ + 1, [], cur => [String.mk cur.reverse]
  | fuel + 1, c :: rest, cur =>
    if c.isWhitespace then
      String.mk cur.reverse :: splitWsFuel fuel (rest.dropWhile Char.isWhitespace) []
    else
      splitWsFuel fuel rest (c :: cur)

/-- JS `s.split(/\s+/)`: each maximal whitespace run is one separator. -/
def jsSplitWs (s : String) : List String :=
  splitWsFuel (s.data.length + 1) s.data []

/-- Worker for `jsIndexOf`. -/
def indexOfAux (needle : List Char) : List Char → Nat → Option Nat
  | [], i => if needle = [] then some i else none
  | c :: rest, i =>
    if needle.isPrefixOf (c :: rest) then some i else indexOfAux needle rest (i + 1)

/-- JS `hay.indexOf(needle)`; `none` plays the role of `-1`. -/
def jsIndexOf (hay needle : String) : Option Nat :=
  indexOfAux needle.data hay.data 0

/-- The `bestStart` loop of `ChromaMemoryStore.generateSnippet`: the first
query word found in the lowered content sets `bestStart = max(0, index - 50)`
(the `Nat` subtraction is already clamped at 0) and breaks. -/
def snippetBestStart (queryWords : List String) (contentLower : String) : Nat :=
  match queryWords with
  | [] => 0
  | word :: rest =>
    match jsIndexOf contentLower word with
    | some index => index - 50
    | none => snippetBestStart rest contentLower

/-- `ChromaMemoryStore.generateSnippet`. -/
def generateSnippet (content query : String) : String :=
  let maxLength := 200
  if content.data.length ≤ maxLength then content
  else
    let queryWords := jsSplitWs (jsToLower query)
    let contentLower := jsToLower content
    let bestStart := snippetBestStart queryWords contentLower
    let snippet : String := ⟨(content.data.drop bestStart).take maxLength⟩
    if bestStart > 0 then "..." ++ snippet ++ "..." else snippet ++ "..."

/-! ## searchMemories (chroma-memory-store.ts) -/

/-- The metadata object attached to one query hit: `type` and `timestamp` may
be absent, everything else stays in the open remainder map. -/
structure QueryMeta where
  type : Option MemoryType := none
  timestamp : Option Nat := none
  rest : List (String × String) := []
  deriving DecidableEq, Repr

/-- `ChromaQueryResult` from chroma-client.ts: parallel per-query arrays;
`distances`/`documents`/`metadatas` are optional at every level, matching the
`?.[0]?.[i]` accesses. -/
structure ChromaQueryResult where
  ids : List (List String)
  distances : Option (List (List ℚ)) := none
  documents : Option (List (List String)) := none
  metadatas : Option (List (List QueryMeta)) := none
  deriving DecidableEq, Repr

/-- The access pattern `o?.[0]?.[i]`. -/
def at2 {α : Type} (o : Option (List (List α))) (i : Nat) : Option α :=
  match o with
  | none => none
  | some rows =>
    match rows with
    | [] => none
    | r :: _ => r[i]?

/-- `SearchQuery` from `@repo/core` (the fields `searchMemories` reads, plus
the `types`/`timeRange` filters which it ignores). -/
structure SearchQuery where
  query : Option String := none
  limit : Option Nat := none
  minRelevanceScore : Option ℚ := none
  types : Option (List MemoryType) := none
  timeRange : Option (Option Nat × Option Nat) := none
  deriving DecidableEq, Repr

/-- `SearchResult<Memory>` from `@repo/core`. -/
structure SearchResultMem where
  id : String
  content : Memory
  relevanceScore : ℚ
  snippet : String
  deriving DecidableEq, Repr

/-- `ChromaMemoryStore.reconstructMemoryFromSearch`: absent `type` defaults to
`conversation`, absent `timestamp` to `new Date()` (the `now` argument). -/
def reconstructMemoryFromSearch (i : String) (document : String) (meta : QueryMeta)
    (now : Nat) : Memory :=
  { id := some i
    type := meta.type.getD .conversation
    content := document
    timestamp := meta.timestamp.getD now
    metadata := meta.rest
    embedding := none
    conv := none }

/-- One iteration of the result-conversion loop of `searchMemories`:
`distance = results.distances?.[0]?.[i] || 1.0` (so a distance of `0` is
replaced by the default `1.0`), `similarity = Math.max(0, 1 - distance)`, and
the `minRelevanceScore` filter only applies when the threshold is truthy. -/
def searchRow (q : SearchQuery) (qs : String) (now : Nat) (res : ChromaQueryResult)
    (row0 : List String) (i : Nat) : Option SearchResultMem :=
  let id := row0[i]?.getD ""
  let distance := jsOrRat (at2 res.distances i) 1
  let metadata := (at2 res.metadatas i).getD {}
  let document := jsOrStr (at2 res.documents i) ""
  let similarity := max 0 (1 - distance)
  if jsTruthyRat q.minRelevanceScore ∧ similarity < q.minRelevanceScore.getD 0 then none
  else
    some { id := id
           content := reconstructMemoryFromSearch id document metadata now
           relevanceScore := similarity
           snippet := generateSnippet document qs }

/-- `ChromaMemoryStore.searchMemories`.  An absent/blank semantic query
returns `[]` before any provider or store call; thrown provider/store errors
are rewrapped as `Search failed: ...`.  The store's reply to
`queryCollection(collection, [embedding], limit)` is the oracle
`queryCollection`. -/
def searchMemories (embed : String → Except String (List ℚ))
    (queryCollection : List ℚ → Nat → Except String ChromaQueryResult)
    (now : Nat) (q : SearchQuery) : Except String (List SearchResultMem) :=
  match q.query with
  | none => .ok []
  | some qs =>
    if jsTrim qs = "" then .ok []
    else
      match embed qs with
      | .error e => .error ("Search failed: " ++ e)
      | .ok qemb =>
        match queryCollection qemb (jsOrNat q.limit 10) with
        | .error e => .error ("Search failed: " ++ e)
        | .ok res =>
          match res.ids with
          | [] => .ok []
          | row0 :: _ => .ok ((List.range row0.length).filterMap (searchRow q qs now res row0))

/-! ## OpenAIEmbeddingService (openai-embedding-service.ts) -/

/-- `callOpenAIEmbeddings`.  The remote call is the oracle `api`, returning
the response's `data` as `(index, embedding)` pairs (or an HTTP-level error).
The JS code fills `new Array(texts.length)` at each pair's `index` (the array
grows when an index exceeds the current length, and a later pair overwrites an
earlier one at the same index — hence the lookup through the reversed list),
then throws at the first hole. -/
def asmIndex (pairs : List (Nat × List ℚ)) (i : Nat) : Option (List ℚ) :=
  ((pairs.reverse).find? (fun p => p.1 = i)).map (·.2)

def callOpenAIEmbeddings (api : List String → Except String (List (Nat × List ℚ)))
    (texts : List String) : Except String (List (List ℚ)) :=
  match api texts with
  | .error e => .error e
  | .ok pairs =>
      let len := pairs.foldl (fun acc p => max acc (p.1 + 1)) texts.length
      match (List.range len).find? (fun i => (asmIndex pairs i).isNone) with
      | some i => .error ("Missing embedding for text at index " ++ toString i)
      | none => .ok ((List.range len).map (fun i => (asmIndex pairs i).getD []))

/-- Fuel-driven worker for `chunksOf`. -/
def chunksFuel (bs : Nat) : Nat → List String → List (List String)
  | 0, _ => []
  | _ + 1, [] => []
  | fuel + 1, l => l.take bs :: chunksFuel bs fuel (l.drop bs)

/-- The batches visited by the loop `for (i = 0; i < length; i += batchSize)
slice(i, i + batchSize)`.  (For `batchSize = 0` the source loop never
terminates; the model is only used with a positive batch size.) -/
def chunksOf (bs : Nat) (l : List String) : List (List String) :=
  chunksFuel bs l.length l

/-- The sequential await-in-a-loop of `processBatches`. -/
def processBatchesGo (api : List String → Except String (List (Nat × List ℚ))) :
    List (List String) → Except String (List (List ℚ))
  | [] => .ok []
  | b :: rest =>
    match callOpenAIEmbeddings api b with
    | .error e => .error e
    | .ok rs =>
      match processBatchesGo api rest with
      | .error e => .error e
      | .ok more => .ok (rs ++ more)

/-- `OpenAIEmbeddingService.processBatches`. -/
def processBatches (api : List String → Except String (List (Nat × List ℚ)))
    (bs : Nat) (texts : List String) : Except String (List (List ℚ)) :=
  processBatchesGo api (chunksOf bs texts)

/-- `OpenAIEmbeddingService.generateEmbeddings`: empty input returns `[]`
immediately; whitespace-only entries are filtered; an all-empty (nonempty)
input throws; oversized filtered input is processed in sequential
sub-batches. -/
def generateEmbeddings (api : List String → Except String (List (Nat × List ℚ)))
    (batchSize : Nat) (texts : List String) : Except String (List (List ℚ)) :=
  if texts.length = 0 then .ok []
  else if (texts.filter (fun t => jsTrim t ≠ "")).length = 0 then
    .error "Cannot generate embeddings for all empty texts"
  else if batchSize < (texts.filter (fun t => jsTrim t ≠ "")).length then
    processBatches api batchSize (texts.filter (fun t => jsTrim t ≠ ""))
  else callOpenAIEmbeddings api (texts.filter (fun t => jsTrim t ≠ ""))

/-! ## MemoryService (memory-service.ts) -/

/-- The error shapes that can escape a MemoryService call: the uniform
`ToolExecutionError` wrapper (tool name, cause message, original args) or a
raw JS `TypeError` thrown outside the try block. -/
inductive SvcErr (α : Type) where
  | typeError (msg : String)
  | toolExecution (tool : String) (cause : String) (args : α)
  deriving DecidableEq

/-- The `config.limits` slice the service reads. -/
structure ServerLimits where
  maxConversationLength : Nat
  deriving DecidableEq, Repr

/-- `CaptureConversationArgs` as received at runtime: every field may be
absent (MCP callers are not type-checked). -/
structure CaptureConversationArgs where
  conversation : Option String := none
  participants : Option (List String) := none
  tags : Option (List String) := none
  summary : Option String := none
  metadata : Option (List (String × String)) := none
  deriving DecidableEq, Repr

/-- `CaptureConversationResult`. -/
structure CaptureConversationResult where
  success : Bool
  memoryId : String
  message : String
  extractedInsights : List String
  actionItems : List String
  deriving DecidableEq, Repr

/-- JS `conversation.split("\n")`. -/
def splitNl : List Char → List (List Char)
  | [] => [[]]
  | c :: rest =>
    if c = '\n' then [] :: splitNl rest
    else
      match splitNl rest with
      | [] => [[c]]
      | t :: ts => (c :: t) :: ts

/-- `/^(user|assistant|system|human|ai):/i` on a char list. -/
def speakerTest (l : List Char) : Bool :=
  let low := l.map Char.toLower
  ["user:", "assistant:", "system:", "human:", "ai:"].any (fun p => p.data.isPrefixOf low)

def isAsciiUpper (c : Char) : Bool := decide ('A' ≤ c) && decide (c ≤ 'Z')

def isAsciiLower (c : Char) : Bool := decide ('a' ≤ c) && decide (c ≤ 'z')

/-- `/^[A-Z][a-z]+:/` on a char list. -/
def nameColonTest (l : List Char) : Bool :=
  match l with
  | [] => false
  | c :: rest =>
      isAsciiUpper c &&
        (let ls := rest.takeWhile isAsciiLower
         decide (0 < ls.length) && decide ((rest.drop ls.length).head? = some ':'))

/-- `/^\d+\./` on a char list. -/
def digitsDotTest (l : List Char) : Bool :=
  match l with
  | [] => false
  | c :: rest =>
      c.isDigit &&
        (let ds := rest.takeWhile Char.isDigit
         decide ((rest.drop ds.length).head? = some '.'))

/-- `messageIndicators.some(pattern => pattern.test(line.trim()))`. -/
def msgIndicatorTest (line : String) : Bool :=
  let t := (jsTrim line).data
  speakerTest t || nameColonTest t || digitsDotTest t ||
    decide (t.head? = some '-') || decide (t.head? = some '>')

/-- `MemoryService.estimateMessageCount`: count indicator lines among the
non-blank lines, with the fallback `Math.ceil(lines.length / 3)`. -/
def estimateMessageCount (conversation : String) : Nat :=
  let lines := ((splitNl conversation.data).map (fun l => (⟨l⟩ : String))).filter
    (fun l => decide (0 < (jsTrim l).data.length))
  let messageCount := lines.countP msgIndicatorTest
  max messageCount ((lines.length + 2) / 3)

/-- `MemoryService.captureConversation`.  The `logger.info` call placed before
the `try` block evaluates `args.conversation.length`, so a missing
`conversation` throws a raw `TypeError` that is never wrapped.  Inside the
try, validation precedes any store interaction; every caught error is
re-thrown as `ToolExecutionError('capture_conversation', message, args)`.  The
pattern-based extractors (`extractBasicInsights`, `extractActionItems`) are
pure string functions passed in as parameters; no claim in scope depends on
their output. -/
def captureConversation (embed : String → Except String (List ℚ))
    (extractInsights extractActions : String → List String)
    (limits : ServerLimits) (genId : String) (now : Nat)
    (args : CaptureConversationArgs) (w : World) :
    Except (SvcErr CaptureConversationArgs) CaptureConversationResult × World :=
  match args.conversation with
  | none =>
      (.error (.typeError "Cannot read properties of undefined (reading 'length')"), w)
  | some conv =>
      if conv = "" then
        (.error (.toolExecution "capture_conversation"
          "Conversation content is required and must be a string" args), w)
      else if limits.maxConversationLength < conv.data.length then
        (.error (.toolExecution "capture_conversation"
          ("Conversation exceeds maximum length of " ++ toString limits.maxConversationLength
            ++ " characters") args), w)
      else
        let convPayload : ConvFields :=
          { participants := args.participants.getD ["user"]
            messageCount := estimateMessageCount conv
            tags := args.tags.getD [] }
        let conversationMemory : Memory :=
          { id := some genId
            type := .conversation
            content := conv
            timestamp := now
            metadata := [("source", "mcp_server"), ("version", "1.0"),
              ("captured_at", toString now)] ++ args.metadata.getD []
            embedding := none
            conv := some convPayload }
        let p := storeMemory embed genId now conversationMemory w
        match p.1 with
        | some e => (.error (.toolExecution "capture_conversation" e args), p.2)
        | none =>
            (.ok { success := true
                   memoryId := genId
                   message := "Conversation captured successfully with "
                     ++ toString (estimateMessageCount conv) ++ " estimated messages"
                   extractedInsights := extractInsights conv
                   actionItems := extractActions conv }, p.2)

/-- `SearchMemoryArgs` as received at runtime. -/
structure SearchMemoryArgs where
  query : Option String := none
  limit : Option Nat := none
  types : Option (List MemoryType) := none
  timeRange : Option (Option Nat × Option Nat) := none
  minRelevanceScore : Option ℚ := none
  deriving DecidableEq, Repr

/-- One formatted hit of `SearchMemoryResult`. -/
structure SearchHit where
  id : String
  content : String
  relevanceScore : ℚ
  timestamp : Nat
  type : MemoryType
  snippet : String
  deriving DecidableEq, Repr

/-- `SearchMemoryResult`.  `searchTime` is wall-clock elapsed milliseconds,
modelled as 0. -/
structure SearchMemoryResult where
  success : Bool
  results : List SearchHit
  totalCount : Nat
  searchTime : Nat
  deriving DecidableEq, Repr

/-- `MemoryService.generateSnippet` (the service-level one): plain prefix
truncation at 200 characters. -/
def serviceGenerateSnippet (content : String) (_query : String) : String :=
  if 200 < content.data.length then (⟨content.data.take 200⟩ : String) ++ "..." else content

/-- `MemoryService.searchMemory`.  The `logger.info` call before the try block
evaluates `args.query.substring(0, 100)`, so a missing `query` throws a raw
`TypeError`.  Defaults: `limit || 10`, `minRelevanceScore || 0.7`. -/
def searchMemory (embed : String → Except String (List ℚ))
    (queryCollection : List ℚ → Nat → Except String ChromaQueryResult)
    (now : Nat) (args : SearchMemoryArgs) :
    Except (SvcErr SearchMemoryArgs) SearchMemoryResult :=
  match args.query with
  | none => .error (.typeError "Cannot read properties of undefined (reading 'substring')")
  | some qs =>
      let searchQuery : SearchQuery :=
        { query := some qs
          limit := some (jsOrNat args.limit 10)
          minRelevanceScore := some (jsOrRat args.minRelevanceScore (7/10))
          types :=
            match args.types with
            | some ts => if 0 < ts.length then some ts else none
            | none => none
          timeRange := args.timeRange }
      match searchMemories embed queryCollection now searchQuery with
      | .error e => .error (.toolExecution "search_memory" e args)
      | .ok rs =>
          .ok { success := true
                results := rs.map (fun r =>
                  { id := r.id
                    content := r.content.content
                    relevanceScore := r.relevanceScore
                    timestamp := r.content.timestamp
                    type := r.content.type
                    snippet := serviceGenerateSnippet r.content.content qs })
                totalCount := rs.length
                searchTime := 0 }

/-- `GetContextArgs` as received at runtime. -/
structure GetContextArgs where
  currentQuery : Option String := none
  recentMessages : Option (List String) := none
  maxMemories : Option Nat := none
  maxTokens : Option Nat := none
  deriving DecidableEq, Repr

/-- One selected context memory. -/
structure ContextMemory where
  content : String
  relevanceScore : ℚ
  timestamp : Nat
  type : MemoryType
  deriving DecidableEq, Repr

/-- `GetContextResult`. -/
structure GetContextResult where
  success : Bool
  memories : List ContextMemory
  estimatedTokens : Nat
  selectionReason : String
  deriving DecidableEq, Repr

/-- `MemoryService.estimateTokens`: per memory,
`ceil((contentLength + (JSON.stringify(memory).length - contentLength)) / 4)`.
`JSON.stringify(memory).length` is the oracle `stringifyLen` (serialization
length is not otherwise observable in the model; it is never smaller than the
content length in reality, matching the truncated `Nat` subtraction). -/
def estimateTokensCtx (stringifyLen : ContextMemory → Nat) (ms : List ContextMemory) : Nat :=
  ms.foldl (fun total m =>
    let contentLength := m.content.data.length
    let metadataLength := stringifyLen m - contentLength
    total + ((contentLength + metadataLength) + 3) / 4) 0

/-- JS `s.substring(a, b)`. -/
def jsSubstring (s : String) (a b : Nat) : String :=
  ⟨(s.data.drop a).take (b - a)⟩

/-- JS `Array.prototype.join(" and ")`. -/
def joinAnd : List String → String
  | [] => ""
  | [r] => r
  | r :: rest => r ++ " and " ++ joinAnd rest

/-- `MemoryService.generateSelectionReason`: zero selected memories always
yield the fixed non-empty reason string. -/
def generateSelectionReason (args : GetContextArgs) (selectedCount : Nat) : String :=
  let reasons :=
    if jsTruthyStr args.currentQuery then
      ["searched for memories matching \"" ++ jsSubstring (args.currentQuery.getD "") 0 50 ++ "\""]
    else ["selected most recent memories"]
  let reasons :=
    if jsTruthyNat args.maxMemories ∧ args.maxMemories.getD 0 ≤ selectedCount then
      reasons ++ ["limited to " ++ toString (args.maxMemories.getD 0) ++ " memories as requested"]
    else reasons
  if selectedCount = 0 then "No relevant memories found matching the criteria"
  else "Selected " ++ toString selectedCount ++ " memories by " ++ joinAnd reasons ++ "."

/-- `MemoryService.getContext`.  With a truthy `currentQuery` it searches with
`minRelevanceScore = 0.6`; otherwise it builds a search with *no* query text
and `minRelevanceScore = 0.3` and hands it to `searchMemories` (which requires
a semantic query).  `maxMemories` defaults to 5 via `||`. -/
def getContext (embed : String → Except String (List ℚ))
    (queryCollection : List ℚ → Nat → Except String ChromaQueryResult)
    (stringifyLen : ContextMemory → Nat) (now : Nat) (args : GetContextArgs) :
    Except (SvcErr GetContextArgs) GetContextResult :=
  let maxMemories := jsOrNat args.maxMemories 5
  let searchQuery : SearchQuery :=
    if jsTruthyStr args.currentQuery then
      { query := args.currentQuery, limit := some maxMemories
        minRelevanceScore := some (6/10) }
    else
      { query := none, limit := some maxMemories, minRelevanceScore := some (3/10) }
  match searchMemories embed queryCollection now searchQuery with
  | .error e => .error (.toolExecution "get_context" e args)
  | .ok searchResults =>
      let contextMemories : List ContextMemory := searchResults.map (fun r =>
        { content := r.content.content
          relevanceScore := r.relevanceScore
          timestamp := r.content.timestamp
          type := r.content.type })
      .ok { success := true
            memories := contextMemories
            estimatedTokens := estimateTokensCtx stringifyLen contextMemories
            selectionReason := generateSelectionReason args contextMemories.length }

/-- `MemoryService.distanceToRelevanceScore`: the (unused) private helper of
memory-service.ts, which clamps into `[0, 1]` on both sides — unlike the
conversion actually performed inside `ChromaMemoryStore.searchMemories`. -/
def distanceToRelevanceScore (distance : ℚ) : ℚ :=
  max 0 (min 1 (1 - distance))

/-! ## Concrete fixtures shared by witnesses and counterexamples -/

/-- An embedding provider that always fails. -/
def embedFail : String → Except String (List ℚ) := fun _ => .error "boom"

/-- An embedding provider that always succeeds with the vector `[1]`. -/
def embedOkOne : String → Except String (List ℚ) := fun _ => .ok [1]

/-- An empty, healthy world. -/
def wEmpty : World := { docs := [], failed := [], writes := [], calls := [] }

/-- A plain fact memory with id `m1`. -/
def mFact : Memory :=
  { id := some "m1", type := .fact, content := "hello", timestamp := 7
    metadata := [("k", "v")], embedding := none, conv := none }

/-! ## Association-list lemmas -/

theorem docLookup_upsertDoc (d : ChromaDocument) (docs : List ChromaDocument) (j : String) :
    docLookup j (upsertDoc d docs) = if j = d.id then some d else docLookup j docs := by
  induction docs with
  | nil =>
    by_cases h : j = d.id
    · simp [docLookup, upsertDoc, List.find?, h]
    · have h2 : ¬ d.id = j := fun hh => h hh.symm
      simp [docLookup, upsertDoc, List.find?, h, h2]
  | cons x rest ih =>
    by_cases hx : x.id = d.id
    · by_cases h : j = d.id
      · simp [docLookup, upsertDoc, List.find?, hx, h]
      · have h2 : ¬ d.id = j := fun hh => h hh.symm
        have h3 : ¬ x.id = j := fun hh => h2 (hx ▸ hh)
        simp [docLookup, upsertDoc, List.find?, hx, h, h2, h3]
    · by_cases h4 : x.id = j
      · have h : ¬ j = d.id := fun hh => hx (h4.trans hh)
        simp [docLookup, upsertDoc, List.find?, hx, h4, h]
      · simp only [docLookup] at ih
        simp [docLookup, upsertDoc, List.find?, hx, h4, ih]

theorem lookupFailed_setFailed (r : FailedEmbedding) (l : List FailedEmbedding) (j : String) :
    lookupFailed j (setFailed r l) =
      if j = r.memoryId then some r else lookupFailed j l := by
  induction l with
  | nil =>
    by_cases h : j = r.memoryId
    · simp [lookupFailed, setFailed, List.find?, h]
    · have h2 : ¬ r.memoryId = j := fun hh => h hh.symm
      simp [lookupFailed, setFailed, List.find?, h, h2]
  | cons x rest ih =>
    by_cases hx : x.memoryId = r.memoryId
    · by_cases h : j = r.memoryId
      · simp [lookupFailed, setFailed, List.find?, hx, h]
      · have h2 : ¬ r.memoryId = j := fun hh => h hh.symm
        have h3 : ¬ x.memoryId = j := fun hh => h2 (hx ▸ hh)
        simp [lookupFailed, setFailed, List.find?, hx, h, h2, h3]
    · by_cases h4 : x.memoryId = j
      · have h : ¬ j = r.memoryId := fun hh => hx (h4.trans hh)
        simp [lookupFailed, setFailed, List.find?, hx, h4, h]
      · simp only [lookupFailed] at ih
        simp [lookupFailed, setFailed, List.find?, hx, h4, ih]

theorem lookupFailed_removeFailed (i : String) (l : List FailedEmbedding) (j : String) :
    lookupFailed j (removeFailed i l) = if j = i then none else lookupFailed j l := by
  induction l with
  | nil => simp [lookupFailed, removeFailed]
  | cons x rest ih =>
    by_cases hx : x.memoryId = i
    · have hdrop : removeFailed i (x :: rest) = removeFailed i rest := by
        simp [removeFailed, List.filter_cons, hx]
      rw [hdrop, ih]
      by_cases hji : j = i
      · simp [hji]
      · have h4 : ¬ x.memoryId = j := fun hh => hji (hh.symm.trans hx)
        simp [hji, lookupFailed, List.find?, h4]
    · have hkeep : removeFailed i (x :: rest) = x :: removeFailed i rest := by
        simp [removeFailed, List.filter_cons, hx]
      rw [hkeep]
      by_cases h4 : x.memoryId = j
      · have hji : ¬ j = i := fun hh => hx (h4.trans hh)
        simp [lookupFailed, List.find?, h4, hji]
      · have lhs : lookupFailed j (x :: removeFailed i rest) =
            lookupFailed j (removeFailed i rest) := by
          simp [lookupFailed, List.find?, h4]
        have rhs : lookupFailed j (x :: rest) = lookupFailed j rest := by
          simp [lookupFailed, List.find?, h4]
        rw [lhs, ih, rhs]

/-- After a `Map.set` on a well-formed table, the entries keyed by the
written id are exactly the written record. -/
theorem filter_setFailed_self (r : FailedEmbedding) (l : List FailedEmbedding)
    (hnd : (l.map (·.memoryId)).Nodup) :
    (setFailed r l).filter (fun f => f.memoryId = r.memoryId) = [r] := by
  induction l with
  | nil => simp [setFailed]
  | cons x rest ih =>
    simp only [List.map_cons, List.nodup_cons] at hnd
    by_cases hx : x.memoryId = r.memoryId
    · have hrest : rest.filter (fun f => f.memoryId = r.memoryId) = [] := by
        rw [List.filter_eq_nil_iff]
        intro f hf
        simp only [decide_eq_true_eq]
        intro hfr
        have hmem : f.memoryId ∈ rest.map (·.memoryId) := List.mem_map_of_mem _ hf
        rw [hfr, ← hx] at hmem
        exact hnd.1 hmem
      simp [setFailed, hx, List.filter_cons, hrest]
    · simp [setFailed, hx, List.filter_cons, ih hnd.2]

/-! ## Memory ⇄ document round trip -/

theorem documentToMemory_memoryToDocument (m : Memory) (emb : List ℚ)
    (hwf : wellFormedMemory m = true) :
    documentToMemory (memoryToDocument m emb) =
      { m with id := some (m.id.getD "")
               embedding := if emb.length > 0 then some emb else none } := by
  by_cases ht : m.type = MemoryType.conversation
  · match hc : m.conv with
    | some p => simp [documentToMemory, memoryToDocument, ht, hc]
    | none =>
      rw [wellFormedMemory, if_pos ht, hc] at hwf
      simp at hwf
  · have hc : m.conv = none := by
      rw [wellFormedMemory, if_neg ht] at hwf
      exact Option.isNone_iff_eq_none.mp hwf
    simp [documentToMemory, memoryToDocument, ht, hc]

theorem memory_eta_id (m : Memory) (i : String) (h : m.id = some i) :
    ({ m with id := some i } : Memory) = m := by
  cases m
  simp_all

/-! ## C1 -/

/-- Characterization of `storeMemory` when the embedding provider fails and
the document store is healthy: the fallback document (empty embedding) is
persisted and a fresh `retryCount = 0` failure record is set. -/
theorem storeMemory_embedError_healthy_eq
    (embed : String → Except String (List ℚ)) (genId : String) (now : Nat)
    (m : Memory) (w : World) (i e : String)
    (hid : m.id = some i) (hi : i ≠ "")
    (hemb : embed m.content = .error e)
    (hhealthy : w.writes = []) :
    storeMemory embed genId now m w =
      (none, { w with
        docs := upsertDoc (memoryToDocument m []) w.docs
        failed := setFailed
          { memoryId := i, content := m.content, timestamp := now, error := e, retryCount := 0 }
          w.failed
        calls := w.calls ++ ["addDocuments"] }) := by
  have hjs : jsOrStr m.id genId = i := by simp [jsOrStr, hid, hi]
  have hmI : ({ m with id := some i } : Memory) = m := memory_eta_id m i hid
  unfold storeMemory
  rw [hemb]
  unfold storeMemoryOnEmbeddingError addDocuments popWrite
  simp only [hhealthy, hjs, hmI]

/-- C1: for every memory `m` with an id, if the embedding provider fails
during `storeMemory(m)` while the document store is healthy, the call returns
normally, `getMemory(m.id)` returns `m` with an absent embedding, and the
failure table holds exactly one entry for `m.id`, with `retryCount = 0`,
recording `m.content` and the provider error. -/
theorem storeMemory_embedFailure_absorbed
    (embed : String → Except String (List ℚ)) (genId : String) (now : Nat)
    (m : Memory) (w : World) (i e : String)
    (hid : m.id = some i) (hi : i ≠ "")
    (hwf : wellFormedMemory m = true)
    (hemb : embed m.content = .error e)
    (hhealthy : w.writes = [])
    (hnd : (w.failed.map (·.memoryId)).Nodup) :
    (storeMemory embed genId now m w).1 = none ∧
    getMemory i (storeMemory embed genId now m w).2 = some { m with embedding := none } ∧
    (getFailedEmbeddings (storeMemory embed genId now m w).2).filter
        (fun f => f.memoryId = i) =
      [{ memoryId := i, content := m.content, timestamp := now, error := e, retryCount := 0 }] := by
  rw [storeMemory_embedError_healthy_eq embed genId now m w i e hid hi hemb hhealthy]
  refine ⟨rfl, ?_, ?_⟩
  · unfold getMemory
    simp only [docLookup_upsertDoc]
    have hdocid : (memoryToDocument m []).id = i := by
      simp [memoryToDocument, hid]
    rw [hdocid, if_pos rfl]
    simp only [Option.map_some']
    rw [documentToMemory_memoryToDocument m [] hwf]
    simp [hid]
  · unfold getFailedEmbeddings
    exact filter_setFailed_self
      { memoryId := i, content := m.content, timestamp := now, error := e, retryCount := 0 }
      w.failed hnd

/-- A world whose next two document writes fail with `e1`, then succeed. -/
def wFlaky : World :=
  { docs := [], failed := [], writes := [some "store write failed", none], calls := [] }

/-- A world whose next two document writes fail (`e1`, then `e2`). -/
def wDown : World :=
  { docs := [], failed := [], writes := [some "e1", some "e2"], calls := [] }

/-- The stored document of `mFact` with an empty embedding. -/
def dFact : ChromaDocument := memoryToDocument mFact []

/-- A healthy world already holding `dFact`. -/
def wWithFact : World := { docs := [dFact], failed := [], writes := [], calls := [] }

/-- A content-only update. -/
def uNew : MemoryUpdates := { content := some "new", metadata := none, timestamp := none }

/-- Witness for C1: concrete memory, failing provider, empty healthy world. -/
theorem storeMemory_embedFailure_absorbed_witness :
    (storeMemory embedFail "gen" 7 mFact wEmpty).1 = none ∧
    getMemory "m1" (storeMemory embedFail "gen" 7 mFact wEmpty).2 =
      some { mFact with embedding := none } ∧
    (getFailedEmbeddings (storeMemory embedFail "gen" 7 mFact wEmpty).2).filter
        (fun f => f.memoryId = "m1") =
      [{ memoryId := "m1", content := mFact.content, timestamp := 7, error := "boom"
         retryCount := 0 }] :=
  storeMemory_embedFailure_absorbed embedFail "gen" 7 mFact wEmpty "m1" "boom"
    rfl (by decide) (by decide) rfl rfl (by simp [wEmpty])

/-! ## C2 -/

/-- Counterexample to C2 as stated: embedding generation succeeds, the
document write fails once, and the retry write (with an empty embedding)
succeeds.  `storeMemory` returns normally — the store-layer failure is
absorbed, not propagated — and a `FailedEmbeddingRecord` for `m.id`
(recording the store error, `retryCount = 0`) *is* created. -/
theorem storeMemory_storeFailure_absorbed_cex :
    (storeMemory embedOkOne "gen" 7 mFact wFlaky).1 = none ∧
    lookupFailed "m1"
        (getFailedEmbeddings (storeMemory embedOkOne "gen" 7 mFact wFlaky).2) =
      some { memoryId := "m1", content := "hello", timestamp := 7
             error := "store write failed", retryCount := 0 } := by
  constructor <;> rfl

/-- C2 (amended): when the document write inside `storeMemory(m)` fails even
though embedding generation succeeded, the caught error triggers a second
`addDocuments` with an empty embedding.  If that fallback write also fails
(store down), the second store-layer error propagates to the caller and
neither the collection nor the failure table is touched; if the fallback
write succeeds, the store failure is absorbed: the call returns normally, the
document is persisted with an empty embedding, and a `retryCount = 0` failure
record tracking the first store error is created for `m.id`. -/
theorem storeMemory_storeFailure_behavior
    (embed : String → Except String (List ℚ)) (genId : String) (now : Nat)
    (m : Memory) (w : World) (i e1 : String) (emb : List ℚ)
    (hid : m.id = some i) (hi : i ≠ "")
    (hemb : embed m.content = .ok emb) :
    (∀ e2 rest2, w.writes = some e1 :: some e2 :: rest2 →
      storeMemory embed genId now m w =
        (some e2, { w with writes := rest2
                           calls := w.calls ++ ["addDocuments"] ++ ["addDocuments"] })) ∧
    (∀ rest2, w.writes = some e1 :: none :: rest2 →
      storeMemory embed genId now m w =
        (none, { w with writes := rest2
                        docs := upsertDoc (memoryToDocument m []) w.docs
                        failed := setFailed
                          { memoryId := i, content := m.content, timestamp := now
                            error := e1, retryCount := 0 } w.failed
                        calls := w.calls ++ ["addDocuments"] ++ ["addDocuments"] })) := by
  have hjs : jsOrStr m.id genId = i := by simp [jsOrStr, hid, hi]
  have hmI : ({ m with id := some i } : Memory) = m := memory_eta_id m i hid
  constructor
  · intro e2 rest2 hw
    unfold storeMemory
    rw [hemb]
    unfold addDocuments popWrite storeMemoryOnEmbeddingError addDocuments popWrite
    simp only [hw, hjs, hmI]
  · intro rest2 hw
    unfold storeMemory
    rw [hemb]
    unfold addDocuments popWrite storeMemoryOnEmbeddingError addDocuments popWrite
    simp only [hw, hjs, hmI]

/-- Witness for C2's amended theorem: with both writes failing, the second
store error propagates and the world keeps its (empty) failure table. -/
theorem storeMemory_storeFailure_behavior_witness :
    storeMemory embedOkOne "gen" 7 mFact wDown =
      (some "e2", { wDown with writes := []
                               calls := wDown.calls ++ ["addDocuments"] ++ ["addDocuments"] }) :=
  (storeMemory_storeFailure_behavior embedOkOne "gen" 7 mFact wDown "m1" "e1" [1]
    rfl (by decide) rfl).1 "e2" [] rfl

/-! ## C5 -/

/-- Counterexample to C5 as stated: updating the content of `m1` (which has no
prior failure record) while the embedding provider fails creates a record with
`retryCount = 1`, not `retryCount = 0` — `(get(id)?.retryCount || 0) + 1`
starts a fresh record at 1. -/
theorem updateMemory_newRecord_starts_at_one_cex :
    (updateMemory embedFail 9 "m1" uNew wWithFact).1 = none ∧
    lookupFailed "m1" (getFailedEmbeddings (updateMemory embedFail 9 "m1" uNew wWithFact).2) =
      some { memoryId := "m1", content := "new", timestamp := 9
             error := "boom", retryCount := 1 } ∧
    (getFailedEmbeddings (updateMemory embedFail 9 "m1" uNew wWithFact).2).filter
        (fun f => f.memoryId = "m1" ∧ f.retryCount = 0) = [] := by
  refine ⟨rfl, rfl, rfl⟩

/-- C5 (amended): `updateMemory(id, partial)` with a truthy, changed `content`
regenerates the embedding with the failure-tolerant policy: on success any
prior failure record for `id` is cleared and the merged document is persisted
with the new embedding; on failure a record is created or updated with
`retryCount` one more than the prior record's count (a newly created record
therefore starts at `retryCount = 1`), and the merged document is still
persisted, keeping the old embedding. -/
theorem updateMemory_embedPolicy
    (embed : String → Except String (List ℚ)) (now : Nat) (i c : String)
    (u : MemoryUpdates) (w : World) (ex : Memory)
    (hex : getMemory i w = some ex)
    (hc : u.content = some c) (hc0 : c ≠ "") (hne : c ≠ ex.content)
    (hhealthy : w.writes = []) :
    (∀ emb, embed c = .ok emb →
      (updateMemory embed now i u w).1 = none ∧
      lookupFailed i (getFailedEmbeddings (updateMemory embed now i u w).2) = none ∧
      docLookup i ((updateMemory embed now i u w).2.docs) =
        some (memoryToDocument (mergeUpdates ex u i) emb)) ∧
    (∀ err, embed c = .error err →
      (updateMemory embed now i u w).1 = none ∧
      lookupFailed i (getFailedEmbeddings (updateMemory embed now i u w).2) =
        some { memoryId := i, content := c, timestamp := now, error := err
               retryCount := (((lookupFailed i w.failed).map (·.retryCount)).getD 0) + 1 } ∧
      docLookup i ((updateMemory embed now i u w).2.docs) =
        some (memoryToDocument (mergeUpdates ex u i) (ex.embedding.getD []))) := by
  have hcond : jsTruthyStr (some c) = true ∧ some c ≠ some ex.content := by
    constructor
    · simp [jsTruthyStr, hc0]
    · simpa using hne
  have hdocid : ∀ emb, (memoryToDocument (mergeUpdates ex u i) emb).id = i := by
    intro emb
    simp [memoryToDocument, mergeUpdates]
  constructor
  · intro emb hemb
    have hstep : updateMemory embed now i u w =
        (none, { w with docs := upsertDoc (memoryToDocument (mergeUpdates ex u i) emb) w.docs
                        failed := removeFailed i w.failed
                        calls := w.calls ++ ["updateDocuments"] }) := by
      unfold updateMemory
      rw [hex, hc]
      simp only [Option.getD_some]
      rw [if_pos hcond]
      rw [hemb]
      unfold updateDocuments popWrite
      simp [hhealthy]
    rw [hstep]
    refine ⟨rfl, ?_, ?_⟩
    · unfold getFailedEmbeddings
      simp [lookupFailed_removeFailed]
    · rw [show ({ w with docs := upsertDoc (memoryToDocument (mergeUpdates ex u i) emb) w.docs
                         failed := removeFailed i w.failed
                         calls := w.calls ++ ["updateDocuments"] } : World).docs =
          upsertDoc (memoryToDocument (mergeUpdates ex u i) emb) w.docs from rfl]
      rw [docLookup_upsertDoc, hdocid emb, if_pos rfl]
  · intro err hemb
    have hstep : updateMemory embed now i u w =
        (none, { w with
          docs := upsertDoc
            (memoryToDocument (mergeUpdates ex u i) (ex.embedding.getD [])) w.docs
          failed := setFailed
            { memoryId := i, content := c, timestamp := now, error := err
              retryCount := (((lookupFailed i w.failed).map (·.retryCount)).getD 0) + 1 }
            w.failed
          calls := w.calls ++ ["updateDocuments"] }) := by
      unfold updateMemory
      rw [hex, hc]
      simp only [Option.getD_some]
      rw [if_pos hcond]
      rw [hemb]
      unfold updateDocuments popWrite
      simp [hhealthy]
    rw [hstep]
    refine ⟨rfl, ?_, ?_⟩
    · unfold getFailedEmbeddings
      simp [lookupFailed_setFailed]
    · rw [show ({ w with
            docs := upsertDoc
              (memoryToDocument (mergeUpdates ex u i) (ex.embedding.getD [])) w.docs
            failed := setFailed
              { memoryId := i, content := c, timestamp := now, error := err
                retryCount := (((lookupFailed i w.failed).map (·.retryCount)).getD 0) + 1 }
              w.failed
            calls := w.calls ++ ["updateDocuments"] } : World).docs =
          upsertDoc (memoryToDocument (mergeUpdates ex u i) (ex.embedding.getD [])) w.docs
        from rfl]
      rw [docLookup_upsertDoc, hdocid (ex.embedding.getD []), if_pos rfl]

/-- Witness for C5's amended theorem at the `wWithFact` fixture: the failing
regeneration yields a fresh record at `retryCount = 0 + 1`. -/
theorem updateMemory_embedPolicy_witness :
    (updateMemory embedFail 9 "m1" uNew wWithFact).1 = none ∧
    lookupFailed "m1" (getFailedEmbeddings (updateMemory embedFail 9 "m1" uNew wWithFact).2) =
      some { memoryId := "m1", content := "new", timestamp := 9, error := "boom"
             retryCount := (((lookupFailed "m1" wWithFact.failed).map (·.retryCount)).getD 0) + 1 } ∧
    docLookup "m1" ((updateMemory embedFail 9 "m1" uNew wWithFact).2.docs) =
      some (memoryToDocument (mergeUpdates mFact uNew "m1") (mFact.embedding.getD [])) :=
  (updateMemory_embedPolicy embedFail 9 "m1" "new" uNew wWithFact mFact
    rfl rfl (by decide) (by decide) rfl).2 "boom" rfl

/-! ## C3 -/

/-- A store reply with distances `0.2` and `0.4`. -/
def qcTwoHits : List ℚ → Nat → Except String ChromaQueryResult := fun _ _ =>
  .ok { ids := [["a", "b"]]
        distances := some [[2/10, 4/10]]
        documents := some [["sunny", "rainy"]]
        metadatas := some [[{}, {}]] }

/-- A store reply with a single exact-match hit at distance `0`. -/
def qcExactHit : List ℚ → Nat → Except String ChromaQueryResult := fun _ _ =>
  .ok { ids := [["z"]]
        distances := some [[0]]
        documents := some [["doc"]]
        metadatas := some [[{}]] }

/-- C3: evaluation of `searchMemories` relevance scoring.  Distances `0.2` and
`0.4` do yield scores `0.8` and `0.6` and `minRelevanceScore = 0.75` retains
only the `0.8` hit; but a result returned at distance `0` (an exact match) is
scored `0`, not `1`: the access `results.distances?.[0]?.[i] || 1.0` treats the
falsy distance `0` as missing and substitutes the default `1.0`, and the
clamped formula `max(0, min(1, 1 - d))` of the claim (implemented verbatim by
the unused service helper `distanceToRelevanceScore`) is not what this loop
computes — it uses `max(0, 1 - d)` on the defaulted distance. -/
theorem searchMemories_relevance_scoring_eval :
    (searchMemories embedOkOne qcTwoHits 0
        { query := some "weather", minRelevanceScore := some (75/100) }).map
        (fun rs => rs.map (fun r => (r.id, r.relevanceScore))) =
      .ok [("a", 8/10)] ∧
    (searchMemories embedOkOne qcExactHit 0 { query := some "exact" }).map
        (fun rs => rs.map (fun r => (r.id, r.relevanceScore))) =
      .ok [("z", 0)] ∧
    distanceToRelevanceScore 0 = 1 := by
  have h1 : jsTrim "weather" ≠ "" := by decide
  have h2 : jsTrim "exact" ≠ "" := by decide
  refine ⟨?_, ?_, by norm_num [distanceToRelevanceScore]⟩
  · norm_num [searchMemories, searchRow, at2, jsOrRat, jsOrStr, jsOrNat, jsTruthyRat,
      embedOkOne, qcTwoHits, reconstructMemoryFromSearch, h1,
      List.range_succ, List.filterMap_cons, Except.map, List.map_cons, List.map_nil]
  · norm_num [searchMemories, searchRow, at2, jsOrRat, jsOrStr, jsOrNat, jsTruthyRat,
      embedOkOne, qcExactHit, reconstructMemoryFromSearch, h2,
      List.range_succ, List.filterMap_cons, Except.map, List.map_cons, List.map_nil]

/-! ## C6 -/

/-- A store reply with one hit at distance `0.1` (relevance `0.9`, which
clears every floor used by `getContext`). -/
def qcOneHit : List ℚ → Nat → Except String ChromaQueryResult := fun _ _ =>
  .ok { ids := [["m9"]]
        distances := some [[1/10]]
        documents := some [["hello"]]
        metadatas := some [[{}]] }

/-- A fixed serialization-length oracle for `JSON.stringify(memory).length`. -/
def lenOracle : ContextMemory → Nat := fun _ => 100

/-- C6: evaluation of `getContext`.  Without a `currentQuery` the service
builds a search with `minRelevanceScore = 0.3` but *no query text*, and
`searchMemories` returns `[]` unconditionally — so no memory is ever retrieved
in the query-less branch, even though the very same store reply yields a
relevance-0.9 memory when a `currentQuery` is supplied.  The query-less call
still returns the fixed non-empty "No relevant memories found" reason. -/
theorem getContext_noQuery_never_retrieves :
    getContext embedOkOne qcOneHit lenOracle 0 {} =
      .ok { success := true, memories := [], estimatedTokens := 0
            selectionReason := "No relevant memories found matching the criteria" } ∧
    (getContext embedOkOne qcOneHit lenOracle 0 { currentQuery := some "hello" }).map
        (fun r => r.memories.map (fun m => (m.content, m.relevanceScore))) =
      .ok [("hello", 9/10)] := by
  have h2 : jsTrim "hello" ≠ "" := by decide
  have h3 : "hello" ≠ "" := by decide
  constructor
  · rfl
  · norm_num [getContext, searchMemories, searchRow, at2, jsOrRat, jsOrStr, jsOrNat,
      jsTruthyRat, jsTruthyStr, embedOkOne, qcOneHit, reconstructMemoryFromSearch, h2, h3,
      List.range_succ, List.filterMap_cons, Except.map, List.map_cons, List.map_nil]

/-! ## C7 -/

/-- C7: a `captureConversation` call whose args lack the required
`conversation` field (and a `searchMemory` call lacking `query`) throws the
raw `TypeError` raised by the `logger.info` field access placed before the
`try` block — not a `ToolExecutionError`; the claim's uniform error shape is
violated for exactly these inputs. -/
theorem missing_required_field_typeError_escapes :
    captureConversation embedOkOne (fun _ => []) (fun _ => [])
        { maxConversationLength := 100 } "id1" 0 {} wEmpty =
      (.error (.typeError "Cannot read properties of undefined (reading 'length')"), wEmpty) ∧
    searchMemory embedOkOne qcOneHit 0 {} =
      .error (.typeError "Cannot read properties of undefined (reading 'substring')") ∧
    (∀ t c a, SvcErr.typeError (α := CaptureConversationArgs)
        "Cannot read properties of undefined (reading 'length')" ≠ .toolExecution t c a) := by
  refine ⟨rfl, rfl, ?_⟩
  intro t c a h
  exact SvcErr.noConfusion h

/-! ## C8 -/

/-- C8: for every args whose conversation content exceeds the configured
maximum length, `captureConversation` fails with the validation error
(surfaced through the uniform `ToolExecutionError` wrapper, carrying the
validation message) and the world is returned untouched: no document-store
call is made (the call log is unchanged) and neither the collection nor the
failure table is mutated. -/
theorem captureConversation_oversize_no_mutation
    (embed : String → Except String (List ℚ))
    (exI exA : String → List String) (limits : ServerLimits)
    (genId : String) (now : Nat) (args : CaptureConversationArgs) (w : World) (c : String)
    (hc : args.conversation = some c)
    (hlen : limits.maxConversationLength < c.data.length) :
    captureConversation embed exI exA limits genId now args w =
      (.error (.toolExecution "capture_conversation"
        ("Conversation exceeds maximum length of " ++ toString limits.maxConversationLength
          ++ " characters") args), w) := by
  have hne : c ≠ "" := by
    intro h
    rw [h] at hlen
    simp at hlen
  unfold captureConversation
  rw [hc]
  simp only []
  rw [if_neg hne, if_pos hlen]

/-- Witness for C8: a 4-character conversation against a 3-character limit
fails validation and leaves the world untouched. -/
theorem captureConversation_oversize_no_mutation_witness :
    captureConversation embedOkOne (fun _ => []) (fun _ => [])
        { maxConversationLength := 3 } "id1" 0 { conversation := some "abcd" } wEmpty =
      (.error (.toolExecution "capture_conversation"
        ("Conversation exceeds maximum length of " ++ toString (3 : Nat) ++ " characters")
        { conversation := some "abcd" }), wEmpty) :=
  captureConversation_oversize_no_mutation embedOkOne (fun _ => []) (fun _ => [])
    { maxConversationLength := 3 } "id1" 0 { conversation := some "abcd" } wEmpty "abcd"
    rfl (by decide)

/-! ## C10 -/

/-- Characterization of `storeMemory` with a successful embedding and a
healthy store. -/
theorem storeMemory_embedOk_healthy_eq
    (embed : String → Except String (List ℚ)) (genId : String) (now : Nat)
    (m : Memory) (w : World) (emb : List ℚ)
    (hemb : embed m.content = .ok emb) (hhealthy : w.writes = []) :
    storeMemory embed genId now m w =
      (none, { w with
        docs := upsertDoc (memoryToDocument { m with id := some (jsOrStr m.id genId) } emb) w.docs
        failed := removeFailed (jsOrStr m.id genId) w.failed
        calls := w.calls ++ ["addDocuments"] }) := by
  unfold storeMemory addDocuments popWrite
  rw [hemb]
  simp [hhealthy]

/-- The thrown-error component and the remaining write outcomes of a
`storeMemory` call do not depend on the generated id (nor on anything of the
world beyond its pending write outcomes). -/
theorem storeMemory_report_indep
    (embed : String → Except String (List ℚ)) (g1 g2 : String) (now : Nat)
    (m : Memory) (w1 w2 : World) (hw : w1.writes = w2.writes) :
    (storeMemory embed g1 now m w1).1 = (storeMemory embed g2 now m w2).1 ∧
    (storeMemory embed g1 now m w1).2.writes = (storeMemory embed g2 now m w2).2.writes := by
  unfold storeMemory storeMemoryOnEmbeddingError addDocuments popWrite
  rw [hw]
  cases embed m.content with
  | ok emb =>
    rcases hws : w2.writes with _ | ⟨o1, rest⟩
    · simp_all
    · cases o1 with
      | none => simp_all
      | some e1 =>
        rcases rest with _ | ⟨o2, rest2⟩
        · simp_all
        · cases o2 with
          | none => simp_all
          | some e2 => simp_all
  | error e =>
    rcases hws : w2.writes with _ | ⟨o1, rest⟩
    · simp_all
    · cases o1 with
      | none => simp_all
      | some e1 => simp_all

/-- Item-level independence lifted to the whole batch loop. -/
theorem storeMemoriesGo_indep
    (embed : String → Except String (List ℚ)) (g1 g2 : Nat → String) (now : Nat) :
    ∀ (ms : List Memory) (i : Nat) (w1 w2 : World), w1.writes = w2.writes →
      (storeMemoriesGo embed g1 now ms i w1).1 = (storeMemoriesGo embed g2 now ms i w2).1 ∧
      (storeMemoriesGo embed g1 now ms i w1).2.writes =
        (storeMemoriesGo embed g2 now ms i w2).2.writes := by
  intro ms
  induction ms with
  | nil => intro i w1 w2 hw; exact ⟨rfl, hw⟩
  | cons m rest ih =>
    intro i w1 w2 hw
    obtain ⟨hr, hwr⟩ := storeMemory_report_indep embed (g1 i) (g2 i) now m w1 w2 hw
    obtain ⟨hgo, hgow⟩ := ih (i + 1)
      (storeMemory embed (g1 i) now m w1).2 (storeMemory embed (g2 i) now m w2).2 hwr
    cases hr1 : (storeMemory embed (g1 i) now m w1).1 with
    | none =>
      have hr2 : (storeMemory embed (g2 i) now m w2).1 = none := hr.symm.trans hr1
      constructor
      · simp only [storeMemoriesGo]
        simp [hr1, hr2, hgo]
      · simp only [storeMemoriesGo]
        simp [hr1, hr2, hgow]
    | some e =>
      have hr2 : (storeMemory embed (g2 i) now m w2).1 = some e := hr.symm.trans hr1
      constructor
      · simp only [storeMemoriesGo]
        simp [hr1, hr2, hgo]
      · simp only [storeMemoriesGo]
        simp [hr1, hr2, hgow]

/-- Per-item outcome flags: each item is reported exactly once, in batch
order, under the name `memory.id || 'unknown'`. -/
theorem storeMemoriesGo_flags
    (embed : String → Except String (List ℚ)) (genIds : Nat → String) (now : Nat) :
    ∀ (ms : List Memory) (i : Nat) (w : World),
    ∃ flags : List (Option String), flags.length = ms.length ∧
      (storeMemoriesGo embed genIds now ms i w).1.1 =
        ((ms.zip flags).filter (fun p => p.2 = none)).map (fun p => jsOrStr p.1.id "unknown") ∧
      (storeMemoriesGo embed genIds now ms i w).1.2 =
        (ms.zip flags).filterMap (fun p => p.2.map (fun e => (jsOrStr p.1.id "unknown", e))) := by
  intro ms
  induction ms with
  | nil => intro i w; exact ⟨[], rfl, rfl, rfl⟩
  | cons m rest ih =>
    intro i w
    obtain ⟨flags, hlen, hs, hf⟩ := ih (i + 1) ((storeMemory embed (genIds i) now m w).2)
    refine ⟨(storeMemory embed (genIds i) now m w).1 :: flags, by simp [hlen], ?_, ?_⟩
    · unfold storeMemoriesGo
      cases hr : (storeMemory embed (genIds i) now m w).1 with
      | none => simp [hr, hs, List.filter_cons]
      | some e => simp [hr, hs, List.filter_cons]
    · unfold storeMemoriesGo
      cases hr : (storeMemory embed (genIds i) now m w).1 with
      | none => simp [hr, hf, List.filterMap_cons]
      | some e => simp [hr, hf, List.filterMap_cons]

/-- C10: `storeMemories` reports each batch item — in particular one whose `id`
is absent — under `memory.id || 'unknown'`: the absent-id item is reported as
the literal string `"unknown"` in `successful` or `failed`; `totalProcessed`
is the batch length; the returned report does not depend on the generated ids
at all; and for a successfully stored id-less item the document is stored
internally under the fresh generated id while `successful` still reads
`["unknown"]`. -/
theorem storeMemories_reports_unknown
    (embed : String → Except String (List ℚ)) (genIds genIds2 : Nat → String) (now : Nat)
    (ms : List Memory) (w : World) :
    (∃ flags : List (Option String), flags.length = ms.length ∧
      (storeMemories embed genIds now ms w).1.successful =
        ((ms.zip flags).filter (fun p => p.2 = none)).map (fun p => jsOrStr p.1.id "unknown") ∧
      (storeMemories embed genIds now ms w).1.failed =
        (ms.zip flags).filterMap (fun p => p.2.map (fun e => (jsOrStr p.1.id "unknown", e)))) ∧
    (storeMemories embed genIds now ms w).1.totalProcessed = ms.length ∧
    (storeMemories embed genIds now ms w).1 = (storeMemories embed genIds2 now ms w).1 ∧
    (∀ m emb, m.id = none → embed m.content = .ok emb → w.writes = [] →
      (storeMemories embed genIds now [m] w).1.successful = ["unknown"] ∧
      docLookup (genIds 0) ((storeMemories embed genIds now [m] w).2.docs) =
        some (memoryToDocument { m with id := some (genIds 0) } emb)) := by
  refine ⟨?_, rfl, ?_, ?_⟩
  · obtain ⟨flags, hlen, hs, hf⟩ := storeMemoriesGo_flags embed genIds now ms 0 w
    exact ⟨flags, hlen, hs, hf⟩
  · obtain ⟨hgo, _⟩ := storeMemoriesGo_indep embed genIds genIds2 now ms 0 w w rfl
    simp [storeMemories, hgo]
  · intro m emb hid hemb hhealthy
    have hjs : jsOrStr m.id (genIds 0) = genIds 0 := by rw [hid]; rfl
    have hstep := storeMemory_embedOk_healthy_eq embed (genIds 0) now m w emb hemb hhealthy
    rw [hjs] at hstep
    have hdocid : (memoryToDocument { m with id := some (genIds 0) } emb).id = genIds 0 := by
      simp [memoryToDocument]
    constructor
    · simp [storeMemories, storeMemoriesGo, hstep, hid, jsOrStr]
    · simp [storeMemories, storeMemoriesGo, hstep, docLookup_upsertDoc, hdocid]

/-- A memory whose `id` field is absent. -/
def mNoId : Memory :=
  { id := none, type := .fact, content := "c", timestamp := 0
    metadata := [], embedding := none, conv := none }

/-- Witness for C10: a singleton batch with an id-less memory is reported as
`["unknown"]` while the document is stored under the generated id. -/
theorem storeMemories_reports_unknown_witness :
    (storeMemories embedOkOne (fun _ => "fresh") 0 [mNoId] wEmpty).1.successful = ["unknown"] ∧
    docLookup "fresh" ((storeMemories embedOkOne (fun _ => "fresh") 0 [mNoId] wEmpty).2.docs) =
      some (memoryToDocument { mNoId with id := some "fresh" } [1]) :=
  (storeMemories_reports_unknown embedOkOne (fun _ => "fresh") (fun _ => "other") 0
    [mNoId] wEmpty).2.2.2 mNoId [1] rfl rfl rfl

/-! ## C9 -/

theorem foldl_max_of_le (pairs : List (Nat × List ℚ)) :
    ∀ n, (∀ p ∈ pairs, p.1 + 1 ≤ n) →
      pairs.foldl (fun acc p => max acc (p.1 + 1)) n = n := by
  induction pairs with
  | nil => intro n _; rfl
  | cons p rest ih =>
    intro n h
    simp only [List.foldl_cons]
    rw [Nat.max_eq_left (h p (by simp))]
    exact ih n (fun q hq => h q (by simp [hq]))

theorem find?_key_of_mem_nodup {β : Type} (i : Nat) (v : β) :
    ∀ (l : List (Nat × β)), (l.map Prod.fst).Nodup → (i, v) ∈ l →
      l.find? (fun p => p.1 = i) = some (i, v) := by
  intro l
  induction l with
  | nil => intro _ hmem; cases hmem
  | cons x rest ih =>
    intro hnd hmem
    simp only [List.map_cons, List.nodup_cons] at hnd
    rcases List.mem_cons.mp hmem with h | h
    · rw [← h]
      simp [List.find?]
    · have hx : ¬ x.1 = i := by
        intro hxi
        exact hnd.1 (by
          rw [hxi]
          exact List.mem_map_of_mem Prod.fst h)
      simp [List.find?, hx, ih hnd.2 h]

/-- Reassembly hits the unique pair carrying index `i`. -/
theorem asmIndex_eq_of_mem (pairs : List (Nat × List ℚ)) (i : Nat) (v : List ℚ)
    (hnd : (pairs.map Prod.fst).Nodup) (hmem : (i, v) ∈ pairs) :
    asmIndex pairs i = some v := by
  unfold asmIndex
  rw [find?_key_of_mem_nodup i v pairs.reverse
    (by rw [List.map_reverse]; exact List.nodup_reverse.mpr hnd)
    (List.mem_reverse.mpr hmem)]
  rfl

/-- Reassembly leaves a hole at every index carried by no pair. -/
theorem asmIndex_eq_none (pairs : List (Nat × List ℚ)) (i : Nat)
    (h : i ∉ pairs.map Prod.fst) : asmIndex pairs i = none := by
  unfold asmIndex
  rw [show pairs.reverse.find? (fun p => p.1 = i) = none from ?_]
  · rfl
  · rw [List.find?_eq_none]
    intro p hp
    simp only [decide_eq_true_eq]
    intro hpi
    exact h (by
      rw [← hpi]
      exact List.mem_map_of_mem Prod.fst (List.mem_reverse.mp hp))

/-- A complete (possibly reordered) response reassembles to one embedding per
input, in input order. -/
theorem callOpenAIEmbeddings_complete
    (api : List String → Except String (List (Nat × List ℚ)))
    (g : String → List ℚ) (texts : List String) (pairs : List (Nat × List ℚ))
    (hapi : api texts = .ok pairs)
    (hperm : pairs.Perm (texts.map g).enum) :
    callOpenAIEmbeddings api texts = .ok (texts.map g) := by
  have hidx : ∀ p ∈ pairs, p.1 + 1 ≤ texts.length := by
    intro p hp
    have hmem := hperm.mem_iff.mp hp
    rw [List.mem_enum_iff_getElem?] at hmem
    have hlt := (List.getElem?_eq_some.mp hmem).1
    rw [List.length_map] at hlt
    omega
  have hfold := foldl_max_of_le pairs texts.length hidx
  have hknd : (pairs.map Prod.fst).Nodup := by
    have hpm := hperm.map Prod.fst
    rw [List.enum_map_fst] at hpm
    rw [List.length_map] at hpm
    exact hpm.symm.nodup (List.nodup_range _)
  have hsome : ∀ i (hi : i < texts.length),
      asmIndex pairs i = some ((texts.map g).get ⟨i, by simpa using hi⟩) := by
    intro i hi
    apply asmIndex_eq_of_mem pairs i _ hknd
    apply hperm.mem_iff.mpr
    rw [List.mem_enum_iff_getElem?]
    exact List.getElem?_eq_getElem (by simpa using hi)
  unfold callOpenAIEmbeddings
  rw [hapi]
  simp only [hfold]
  have hnone : (List.range texts.length).find? (fun i => (asmIndex pairs i).isNone) = none := by
    rw [List.find?_eq_none]
    intro i hi
    rw [List.mem_range] at hi
    simp [hsome i hi]
  rw [hnone]
  show Except.ok ((List.range texts.length).map (fun i => (asmIndex pairs i).getD [])) =
    Except.ok (texts.map g)
  congr 1
  apply List.ext_getElem (by simp)
  intro n h1 h2
  simp only [List.getElem_map, List.getElem_range]
  rw [hsome n (by simpa using h1)]
  simp [List.get_eq_getElem]

/-- A response with all indices in range but some expected index missing makes
the call fail with the completeness error at the first hole. -/
theorem callOpenAIEmbeddings_missing
    (api : List String → Except String (List (Nat × List ℚ)))
    (texts : List String) (pairs : List (Nat × List ℚ))
    (hapi : api texts = .ok pairs)
    (hidx : ∀ p ∈ pairs, p.1 + 1 ≤ texts.length)
    (hmiss : ∃ i, i < texts.length ∧ i ∉ pairs.map Prod.fst) :
    ∃ j : Nat, callOpenAIEmbeddings api texts =
      .error ("Missing embedding for text at index " ++ toString j) := by
  have hfold := foldl_max_of_le pairs texts.length hidx
  obtain ⟨i, hi, hni⟩ := hmiss
  have hfind : ((List.range texts.length).find?
      (fun k => (asmIndex pairs k).isNone)).isSome := by
    rw [List.find?_isSome]
    exact ⟨i, List.mem_range.mpr hi, by simp [asmIndex_eq_none pairs i hni]⟩
  obtain ⟨j, hj⟩ := Option.isSome_iff_exists.mp hfind
  refine ⟨j, ?_⟩
  unfold callOpenAIEmbeddings
  rw [hapi]
  simp only [hfold]
  rw [hj]

theorem processBatchesGo_ok
    (api : List String → Except String (List (Nat × List ℚ))) (g : String → List ℚ) :
    ∀ chunks : List (List String),
      (∀ b ∈ chunks, callOpenAIEmbeddings api b = .ok (b.map g)) →
      processBatchesGo api chunks = .ok (chunks.flatten.map g) := by
  intro chunks
  induction chunks with
  | nil => intro _; rfl
  | cons b rest ih =>
    intro h
    unfold processBatchesGo
    rw [h b (by simp), ih (fun c hc => h c (by simp [hc]))]
    simp

theorem chunksOf_flatten (bs : Nat) (hbs : 1 ≤ bs) (l : List String) :
    (chunksOf bs l).flatten = l := by
  rw [chunksOf]
  generalize hf : l.length = fuel
  have hle : l.length ≤ fuel := hf.le
  clear hf
  induction fuel generalizing l with
  | zero => simp_all [chunksFuel, List.length_eq_zero.mp (Nat.le_zero.mp hle)]
  | succ n ih =>
    cases l with
    | nil => simp [chunksFuel]
    | cons x xs =>
      simp only [chunksFuel, List.flatten_cons]
      rw [ih]
      · exact List.take_append_drop _ _
      · have hd := List.length_drop bs (x :: xs)
        simp only [List.length_cons] at hd hle ⊢
        omega

theorem chunksOf_le (bs : Nat) (l : List String) :
    ∀ c ∈ chunksOf bs l, c.length ≤ bs := by
  rw [chunksOf]
  generalize l.length = fuel
  induction fuel generalizing l with
  | zero => simp [chunksFuel]
  | succ n ih =>
    cases l with
    | nil => simp [chunksFuel]
    | cons x xs =>
      intro c hc
      simp only [chunksFuel] at hc
      rcases List.mem_cons.mp hc with h | h
      · rw [h]
        exact List.length_take_le bs (x :: xs)
      · exact ih (List.drop bs (x :: xs)) c h

/-- C9: `generateEmbeddings` (a) fails on a nonempty all-blank input,
(b) operates on the blank-filtered list, (c) splits the filtered list into
sub-batches of at most `batchSize` texts, (d) given complete — possibly
reordered — per-call `(index, vector)` responses it returns exactly one
embedding per surviving text, concatenated in the original input order, and
(e) a single-batch response missing an expected index fails with the
completeness error. -/
theorem generateEmbeddings_spec
    (api : List String → Except String (List (Nat × List ℚ)))
    (g : String → List ℚ) (batchSize : Nat) (texts : List String)
    (hbs : 1 ≤ batchSize) :
    (texts ≠ [] → (∀ t ∈ texts, jsTrim t = "") →
      generateEmbeddings api batchSize texts =
        .error "Cannot generate embeddings for all empty texts") ∧
    (texts.filter (fun t => jsTrim t ≠ "") ≠ [] →
      generateEmbeddings api batchSize texts =
        generateEmbeddings api batchSize (texts.filter (fun t => jsTrim t ≠ ""))) ∧
    (∀ b ∈ chunksOf batchSize (texts.filter (fun t => jsTrim t ≠ "")), b.length ≤ batchSize) ∧
    ((∀ b, ∃ pairs, api b = .ok pairs ∧ pairs.Perm (b.map g).enum) →
      texts.filter (fun t => jsTrim t ≠ "") ≠ [] →
      generateEmbeddings api batchSize texts =
        .ok ((texts.filter (fun t => jsTrim t ≠ "")).map g)) ∧
    (∀ pairs, texts ≠ [] → (∀ t ∈ texts, jsTrim t ≠ "") → texts.length ≤ batchSize →
      api texts = .ok pairs → (∀ p ∈ pairs, p.1 + 1 ≤ texts.length) →
      (∃ i, i < texts.length ∧ i ∉ pairs.map Prod.fst) →
      ∃ j : Nat, generateEmbeddings api batchSize texts =
        .error ("Missing embedding for text at index " ++ toString j)) := by
  refine ⟨?_, ?_, chunksOf_le batchSize _, ?_, ?_⟩
  · intro hne hall
    have hlen : ¬ texts.length = 0 := by
      simpa [List.length_eq_zero] using hne
    have hfil : (texts.filter (fun t => jsTrim t ≠ "")).length = 0 := by
      rw [List.length_eq_zero, List.filter_eq_nil_iff]
      intro t ht
      simp [hall t ht]
    unfold generateEmbeddings
    rw [if_neg hlen, if_pos hfil]
  · intro hfil
    have hne : ¬ texts.length = 0 := by
      intro h
      rw [List.length_eq_zero.mp h] at hfil
      exact hfil rfl
    have hF : (texts.filter (fun t => jsTrim t ≠ "")).filter (fun t => jsTrim t ≠ "") =
        texts.filter (fun t => jsTrim t ≠ "") := by
      rw [List.filter_eq_self]
      intro a ha
      exact (List.mem_filter.mp ha).2
    have hFlen : ¬ (texts.filter (fun t => jsTrim t ≠ "")).length = 0 := by
      simpa [List.length_eq_zero] using hfil
    unfold generateEmbeddings
    rw [hF]
    simp only [if_neg hne, if_neg hFlen]
  · intro hgood hfil
    have hne : ¬ texts.length = 0 := by
      intro h
      rw [List.length_eq_zero.mp h] at hfil
      exact hfil rfl
    have hFlen : ¬ (texts.filter (fun t => jsTrim t ≠ "")).length = 0 := by
      simpa [List.length_eq_zero] using hfil
    have hcall : ∀ b, callOpenAIEmbeddings api b = .ok (b.map g) := by
      intro b
      obtain ⟨pairs, hapi, hperm⟩ := hgood b
      exact callOpenAIEmbeddings_complete api g b pairs hapi hperm
    unfold generateEmbeddings
    simp only [if_neg hne, if_neg hFlen]
    by_cases hsize : batchSize < (texts.filter (fun t => jsTrim t ≠ "")).length
    · rw [if_pos hsize]
      unfold processBatches
      rw [processBatchesGo_ok api g _ (fun b _ => hcall b), chunksOf_flatten batchSize hbs]
    · rw [if_neg hsize]
      exact hcall _
  · intro pairs hne hall hsz hapi hidx hmiss
    have hlen : ¬ texts.length = 0 := by
      simpa [List.length_eq_zero] using hne
    have hF : texts.filter (fun t => jsTrim t ≠ "") = texts := by
      rw [List.filter_eq_self]
      intro a ha
      simpa using hall a ha
    have hsize : ¬ batchSize < texts.length := Nat.not_lt.mpr hsz
    obtain ⟨j, hj⟩ := callOpenAIEmbeddings_missing api texts pairs hapi hidx hmiss
    refine ⟨j, ?_⟩
    unfold generateEmbeddings
    rw [hF]
    rw [if_neg hlen, if_neg hlen, if_neg hsize]
    exact hj

/-- A reference embedding function for witnesses (each text maps to the
one-element vector holding its length). -/
def gLen : String → List ℚ := fun t => [(t.data.length : ℚ)]

/-- A provider that answers every batch with the complete in-order
`(index, vector)` response for `g`. -/
def apiEnum (g : String → List ℚ) :
    List String → Except String (List (Nat × List ℚ)) :=
  fun b => .ok (b.map g).enum

/-- Witness for C9: four texts (one whitespace-only, hence filtered), batch
size 2 — the blank entry is dropped and one embedding per surviving text is
returned in the original order across two sequential sub-batches. -/
theorem generateEmbeddings_spec_witness :
    generateEmbeddings (apiEnum gLen) 2 ["a", " ", "bc", "def"] =
      .ok (((["a", " ", "bc", "def"] : List String).filter
        (fun t => jsTrim t ≠ "")).map gLen) :=
  (generateEmbeddings_spec (apiEnum gLen) gLen 2 ["a", " ", "bc", "def"]
    (by decide)).2.2.2.1
    (fun b => ⟨(b.map gLen).enum, rfl, List.Perm.refl _⟩) (by decide)

/-! ## C4 -/

/-- A world with one tracked failure whose memory is absent from the store. -/
def wOrphan : World :=
  { docs := []
    failed := [{ memoryId := "x", content := "c", timestamp := 0, error := "err0"
                 retryCount := 0 }]
    writes := [], calls := [] }

/-- Counterexample to C4 as stated: one tracked entry with `retryCount = 0`
whose re-embedding succeeds but whose memory id has no document in the store.
`reprocessFailedEmbeddings` reports it in *neither* list (the `if (memory)`
has no else branch), so `|successful| + |failed| = 0 ≠ 1 = totalProcessed`,
and the entry stays tracked unchanged. -/
theorem reprocess_skipped_entry_cex :
    reprocessFailedEmbeddings embedOkOne 3 wOrphan =
      ({ successful := [], failed := [], totalProcessed := 1 }, wOrphan) := by
  rfl

/-- Whether the store currently holds a document for `i`. -/
def hasDoc (i : String) (w : World) : Bool :=
  (docLookup i w.docs).isSome

/-- Whether the provider would embed `c` successfully. -/
def embedOkB (embed : String → Except String (List ℚ)) (c : String) : Bool :=
  match embed c with
  | .ok _ => true
  | .error _ => false

/-- The entry is retried, re-embeds, and its memory is present: reported
successful. -/
def reprocessSuccB (embed : String → Except String (List ℚ)) (maxR : Nat) (w : World)
    (f : FailedEmbedding) : Bool :=
  decide (f.retryCount < maxR) && embedOkB embed f.content && hasDoc f.memoryId w

/-- The entry is at/over the retry cap, or its re-embedding fails: reported
failed. -/
def reprocessFailB (embed : String → Except String (List ℚ)) (maxR : Nat)
    (f : FailedEmbedding) : Bool :=
  decide (maxR ≤ f.retryCount) || !(embedOkB embed f.content)

/-- The entry is retried and re-embeds but its memory is missing from the
store: reported in neither list. -/
def reprocessSkipB (embed : String → Except String (List ℚ)) (maxR : Nat) (w : World)
    (f : FailedEmbedding) : Bool :=
  decide (f.retryCount < maxR) && embedOkB embed f.content && !(hasDoc f.memoryId w)

/-- The error string reported for a failed entry. -/
def reprocessFailMsg (embed : String → Except String (List ℚ)) (maxR : Nat)
    (f : FailedEmbedding) : String :=
  if maxR ≤ f.retryCount then "Max retries (" ++ toString maxR ++ ") exceeded"
  else
    match embed f.content with
    | .error e => e
    | .ok _ => ""

/-- The entry's fate in the failure table: kept as-is (capped or skipped),
updated (failed retry), or deleted (successful retry). -/
def reprocessFate (embed : String → Except String (List ℚ)) (maxR : Nat) (w : World)
    (f : FailedEmbedding) : Option FailedEmbedding :=
  if maxR ≤ f.retryCount then some f
  else
    match embed f.content with
    | .error e => some { f with retryCount := f.retryCount + 1, error := e }
    | .ok _ => if hasDoc f.memoryId w then none else some f

/-- The embedding written back on a successful retry. -/
def reprocessNewEmb (embed : String → Except String (List ℚ)) (c : String) : List ℚ :=
  match embed c with
  | .ok e => e
  | .error _ => []

theorem docLookup_id (i : String) (docs : List ChromaDocument) (d : ChromaDocument)
    (h : docLookup i docs = some d) : d.id = i := by
  unfold docLookup at h
  have := List.find?_some h
  simpa using this

theorem updateDocuments_healthy (doc : ChromaDocument) (w : World) (h : w.writes = []) :
    updateDocuments doc w =
      (none, { w with docs := upsertDoc doc w.docs
                      calls := w.calls ++ ["updateDocuments"] }) := by
  unfold updateDocuments popWrite
  simp [h]

theorem reprocessSuccB_congr (embed : String → Except String (List ℚ)) (maxR : Nat)
    (w1 w2 : World) (h : ∀ j, hasDoc j w1 = hasDoc j w2) (f : FailedEmbedding) :
    reprocessSuccB embed maxR w1 f = reprocessSuccB embed maxR w2 f := by
  unfold reprocessSuccB
  rw [h]

theorem reprocessFate_congr (embed : String → Except String (List ℚ)) (maxR : Nat)
    (w1 w2 : World) (h : ∀ j, hasDoc j w1 = hasDoc j w2) (f : FailedEmbedding) :
    reprocessFate embed maxR w1 f = reprocessFate embed maxR w2 f := by
  unfold reprocessFate
  rw [h]

/-- The main loop invariant of `reprocessFailedEmbeddings`, by induction over
the snapshot of tracked entries. -/
theorem reprocessGo_spec (embed : String → Except String (List ℚ)) (maxR : Nat) :
    ∀ (l : List FailedEmbedding) (w : World),
      w.writes = [] →
      (l.map (·.memoryId)).Nodup →
      (∀ f ∈ l, lookupFailed f.memoryId w.failed = some f) →
      (reprocessGo embed maxR l w).1.1 =
          (l.filter (reprocessSuccB embed maxR w)).map (·.memoryId) ∧
      (reprocessGo embed maxR l w).1.2 =
          (l.filter (reprocessFailB embed maxR)).map
            (fun f => (f.memoryId, reprocessFailMsg embed maxR f)) ∧
      (reprocessGo embed maxR l w).2.writes = [] ∧
      (∀ j, hasDoc j (reprocessGo embed maxR l w).2 = hasDoc j w) ∧
      (∀ j, j ∉ l.map (·.memoryId) →
        lookupFailed j (reprocessGo embed maxR l w).2.failed = lookupFailed j w.failed) ∧
      (∀ f ∈ l, lookupFailed f.memoryId (reprocessGo embed maxR l w).2.failed =
        reprocessFate embed maxR w f) ∧
      (∀ j, j ∉ l.map (·.memoryId) →
        docLookup j (reprocessGo embed maxR l w).2.docs = docLookup j w.docs) ∧
      (∀ f ∈ l, reprocessSuccB embed maxR w f = true →
        (docLookup f.memoryId (reprocessGo embed maxR l w).2.docs).map
          ChromaDocument.embedding = some (reprocessNewEmb embed f.content)) := by
  intro l
  induction l with
  | nil =>
    intro w hw hnd hlk
    refine ⟨rfl, rfl, hw, fun j => rfl, fun j _ => rfl, ?_, fun j _ => rfl, ?_⟩
    · intro f hf
      cases hf
    · intro f hf
      cases hf
  | cons f rest ih =>
    intro w hw hnd hlk
    simp only [List.map_cons, List.nodup_cons] at hnd
    have hndf : f.memoryId ∉ rest.map (·.memoryId) := hnd.1
    have hndr := hnd.2
    have hlkf : lookupFailed f.memoryId w.failed = some f := hlk f (by simp)
    have hlkr : ∀ g ∈ rest, lookupFailed g.memoryId w.failed = some g :=
      fun g hg => hlk g (by simp [hg])
    have hkey : ∀ g ∈ rest, g.memoryId ≠ f.memoryId := by
      intro g hg he
      exact hndf (he ▸ List.mem_map_of_mem (·.memoryId) hg)
    by_cases hA : maxR ≤ f.retryCount
    · -- capped entry: reported failed without a retry, world untouched
      have hstep : reprocessGo embed maxR (f :: rest) w =
          (((reprocessGo embed maxR rest w).1.1,
            (f.memoryId, "Max retries (" ++ toString maxR ++ ") exceeded")
              :: (reprocessGo embed maxR rest w).1.2),
            (reprocessGo embed maxR rest w).2) := by
        simp only [reprocessGo, if_pos hA]
      obtain ⟨ih1, ih2, ih3, ih4, ih5, ih6, ih7, ih8⟩ := ih w hw hndr hlkr
      have hnlt : ¬ f.retryCount < maxR := Nat.not_lt.mpr hA
      have hsuccf : reprocessSuccB embed maxR w f = false := by
        simp [reprocessSuccB, hnlt]
      have hfailf : reprocessFailB embed maxR f = true := by
        simp [reprocessFailB, hA]
      rw [hstep]
      refine ⟨?_, ?_, ih3, ih4, ?_, ?_, ?_, ?_⟩
      · simp [List.filter_cons, hsuccf, ih1]
      · simp [List.filter_cons, hfailf, ih2, reprocessFailMsg, if_pos hA]
      · intro j hj
        simp only [List.map_cons, List.mem_cons] at hj
        push_neg at hj
        exact ih5 j hj.2
      · intro g hg
        rcases List.mem_cons.mp hg with h | h
        · subst h
          rw [ih5 g.memoryId hndf, hlkf]
          unfold reprocessFate
          rw [if_pos hA]
        · exact ih6 g h
      · intro j hj
        simp only [List.map_cons, List.mem_cons] at hj
        push_neg at hj
        exact ih7 j hj.2
      · intro g hg hsg
        rcases List.mem_cons.mp hg with h | h
        · subst h
          rw [hsuccf] at hsg
          cases hsg
        · exact ih8 g h hsg
    · have hlt : f.retryCount < maxR := Nat.not_le.mp hA
      cases hembed : embed f.content with
      | error e =>
        -- failed retry: retryCount incremented, error updated, reported failed
        set w1 : World :=
          { w with
              failed := setFailed ({ f with retryCount := f.retryCount + 1, error := e })
                w.failed } with hw1
        have hstep : reprocessGo embed maxR (f :: rest) w =
            (((reprocessGo embed maxR rest w1).1.1,
              (f.memoryId, e) :: (reprocessGo embed maxR rest w1).1.2),
              (reprocessGo embed maxR rest w1).2) := by
          rw [hw1]
          simp only [reprocessGo, if_neg hA, hembed]
        have hpres : ∀ j, hasDoc j w1 = hasDoc j w := fun j => rfl
        have hlkr1 : ∀ g ∈ rest, lookupFailed g.memoryId w1.failed = some g := by
          intro g hg
          rw [hw1]
          show lookupFailed g.memoryId (setFailed _ w.failed) = some g
          rw [lookupFailed_setFailed]
          rw [if_neg (hkey g hg)]
          exact hlkr g hg
        obtain ⟨ih1, ih2, ih3, ih4, ih5, ih6, ih7, ih8⟩ := ih w1 hw hndr hlkr1
        have hembf : embedOkB embed f.content = false := by
          simp [embedOkB, hembed]
        have hsuccf : reprocessSuccB embed maxR w f = false := by
          simp [reprocessSuccB, hembf]
        have hfailf : reprocessFailB embed maxR f = true := by
          simp [reprocessFailB, hembf]
        rw [hstep]
        refine ⟨?_, ?_, ih3, ?_, ?_, ?_, ?_, ?_⟩
        · rw [ih1, List.filter_cons]
          simp only [hsuccf]
          rw [List.filter_congr (fun g hg => reprocessSuccB_congr embed maxR w1 w hpres g)]
          simp
        · rw [ih2, List.filter_cons]
          simp only [hfailf]
          simp [reprocessFailMsg, if_neg hA, hembed]
        · intro j
          rw [ih4 j, hpres j]
        · intro j hj
          simp only [List.map_cons, List.mem_cons] at hj
          push_neg at hj
          rw [ih5 j hj.2, hw1]
          show lookupFailed j (setFailed _ w.failed) = lookupFailed j w.failed
          rw [lookupFailed_setFailed, if_neg hj.1]
        · intro g hg
          rcases List.mem_cons.mp hg with h | h
          · subst h
            rw [ih5 g.memoryId hndf, hw1]
            show lookupFailed g.memoryId (setFailed _ w.failed) = _
            rw [lookupFailed_setFailed, if_pos rfl]
            unfold reprocessFate
            rw [if_neg hA, hembed]
          · rw [ih6 g h, reprocessFate_congr embed maxR w1 w hpres g]
        · intro j hj
          simp only [List.map_cons, List.mem_cons] at hj
          push_neg at hj
          rw [ih7 j hj.2]
        · intro g hg hsg
          rcases List.mem_cons.mp hg with h | h
          · subst h
            rw [hsuccf] at hsg
            cases hsg
          · exact ih8 g h (by rw [reprocessSuccB_congr embed maxR w1 w hpres g]; exact hsg)
      | ok emb =>
        cases hm : getMemory f.memoryId w with
        | none =>
          -- skipped entry: memory absent, reported in neither list, untouched
          have hstep : reprocessGo embed maxR (f :: rest) w = reprocessGo embed maxR rest w := by
            simp only [reprocessGo, if_neg hA, hembed, hm]
          obtain ⟨ih1, ih2, ih3, ih4, ih5, ih6, ih7, ih8⟩ := ih w hw hndr hlkr
          have hdocf : hasDoc f.memoryId w = false := by
            unfold getMemory at hm
            unfold hasDoc
            rw [Option.map_eq_none'] at hm
            simp [hm]
          have hembt : embedOkB embed f.content = true := by
            simp [embedOkB, hembed]
          have hsuccf : reprocessSuccB embed maxR w f = false := by
            simp [reprocessSuccB, hdocf]
          have hfailf : reprocessFailB embed maxR f = false := by
            simp [reprocessFailB, hembt, Nat.not_le.mpr hlt]
          rw [hstep]
          refine ⟨?_, ?_, ih3, ih4, ?_, ?_, ?_, ?_⟩
          · simp [List.filter_cons, hsuccf, ih1]
          · simp [List.filter_cons, hfailf, ih2]
          · intro j hj
            simp only [List.map_cons, List.mem_cons] at hj
            push_neg at hj
            exact ih5 j hj.2
          · intro g hg
            rcases List.mem_cons.mp hg with h | h
            · subst h
              rw [ih5 g.memoryId hndf, hlkf]
              unfold reprocessFate
              rw [if_neg hA, hembed, hdocf]
              rfl
            · exact ih6 g h
          · intro j hj
            simp only [List.map_cons, List.mem_cons] at hj
            push_neg at hj
            exact ih7 j hj.2
          · intro g hg hsg
            rcases List.mem_cons.mp hg with h | h
            · subst h
              rw [hsuccf] at hsg
              cases hsg
            · exact ih8 g h hsg
        | some mem =>
          -- successful retry: embedding written back, record deleted
          obtain ⟨d, hd, hmd⟩ : ∃ d, docLookup f.memoryId w.docs = some d ∧
              documentToMemory d = mem := by
            unfold getMemory at hm
            rcases Option.map_eq_some'.mp hm with ⟨d, hd, hmd⟩
            exact ⟨d, hd, hmd⟩
          have hdid : d.id = f.memoryId := docLookup_id _ _ _ hd
          have hdocid : (memoryToDocument mem emb).id = f.memoryId := by
            rw [← hmd]
            simp [memoryToDocument, documentToMemory, hdid]
          have hud := updateDocuments_healthy (memoryToDocument mem emb) w hw
          set w1 : World :=
            { w with
                docs := upsertDoc (memoryToDocument mem emb) w.docs
                failed := removeFailed f.memoryId w.failed
                calls := w.calls ++ ["updateDocuments"] } with hw1
          have hstep : reprocessGo embed maxR (f :: rest) w =
              (((f.memoryId :: (reprocessGo embed maxR rest w1).1.1),
                (reprocessGo embed maxR rest w1).1.2),
                (reprocessGo embed maxR rest w1).2) := by
            rw [hw1]
            simp only [reprocessGo, if_neg hA, hembed, hm, hud]
          have hdocf : hasDoc f.memoryId w = true := by
            unfold hasDoc
            rw [hd]
            rfl
          have hpres : ∀ j, hasDoc j w1 = hasDoc j w := by
            intro j
            rw [hw1]
            show (docLookup j (upsertDoc (memoryToDocument mem emb) w.docs)).isSome = _
            rw [docLookup_upsertDoc]
            by_cases hj : j = (memoryToDocument mem emb).id
            · rw [if_pos hj, hj, hdocid]
              unfold hasDoc
              rw [hd]
              rfl
            · rw [if_neg hj]
              rfl
          have hlkr1 : ∀ g ∈ rest, lookupFailed g.memoryId w1.failed = some g := by
            intro g hg
            rw [hw1]
            show lookupFailed g.memoryId (removeFailed f.memoryId w.failed) = some g
            rw [lookupFailed_removeFailed, if_neg (hkey g hg)]
            exact hlkr g hg
          obtain ⟨ih1, ih2, ih3, ih4, ih5, ih6, ih7, ih8⟩ := ih w1 hw hndr hlkr1
          have hembt : embedOkB embed f.content = true := by
            simp [embedOkB, hembed]
          have hsuccf : reprocessSuccB embed maxR w f = true := by
            simp [reprocessSuccB, hembt, hdocf, hlt]
          have hfailf : reprocessFailB embed maxR f = false := by
            simp [reprocessFailB, hembt, Nat.not_le.mpr hlt]
          rw [hstep]
          refine ⟨?_, ?_, ih3, ?_, ?_, ?_, ?_, ?_⟩
          · rw [ih1, List.filter_cons]
            simp only [hsuccf]
            rw [List.filter_congr (fun g hg => reprocessSuccB_congr embed maxR w1 w hpres g)]
            simp
          · rw [ih2, List.filter_cons]
            simp only [hfailf]
            simp
          · intro j
            rw [ih4 j, hpres j]
          · intro j hj
            simp only [List.map_cons, List.mem_cons] at hj
            push_neg at hj
            rw [ih5 j hj.2, hw1]
            show lookupFailed j (removeFailed f.memoryId w.failed) = lookupFailed j w.failed
            rw [lookupFailed_removeFailed, if_neg hj.1]
          · intro g hg
            rcases List.mem_cons.mp hg with h | h
            · subst h
              rw [ih5 g.memoryId hndf, hw1]
              show lookupFailed g.memoryId (removeFailed g.memoryId w.failed) = _
              rw [lookupFailed_removeFailed, if_pos rfl]
              unfold reprocessFate
              rw [if_neg hA, hembed, hdocf]
              rfl
            · rw [ih6 g h, reprocessFate_congr embed maxR w1 w hpres g]
          · intro j hj
            simp only [List.map_cons, List.mem_cons] at hj
            push_neg at hj
            rw [ih7 j hj.2, hw1]
            show docLookup j (upsertDoc (memoryToDocument mem emb) w.docs) = _
            rw [docLookup_upsertDoc, if_neg (hdocid ▸ hj.1)]
          · intro g hg hsg
            rcases List.mem_cons.mp hg with h | h
            · subst h
              rw [ih7 g.memoryId hndf, hw1]
              show (docLookup g.memoryId (upsertDoc (memoryToDocument mem emb) w.docs)).map
                ChromaDocument.embedding = _
              rw [docLookup_upsertDoc, if_pos hdocid.symm]
              simp [memoryToDocument, reprocessNewEmb, hembed]
            · exact ih8 g h (by rw [reprocessSuccB_congr embed maxR w1 w hpres g]; exact hsg)

theorem lookupFailed_self_of_nodup (l : List FailedEmbedding)
    (h : (l.map (fun f => f.memoryId)).Nodup) :
    ∀ f ∈ l, lookupFailed f.memoryId l = some f := by
  induction l with
  | nil =>
    intro f hf
    cases hf
  | cons x rest ih =>
    rw [List.map_cons, List.nodup_cons] at h
    intro f hf
    rcases List.mem_cons.mp hf with rfl | hf
    · simp [lookupFailed, List.find?]
    · have hne : (decide (x.memoryId = f.memoryId)) = false := by
        simp only [decide_eq_false_iff_not]
        intro he
        exact h.1 (he ▸ List.mem_map_of_mem (fun g => g.memoryId) hf)
      unfold lookupFailed
      simp only [List.find?, hne]
      exact ih h.2 f hf

theorem filter3_partition (p1 p2 p3 : FailedEmbedding → Bool) :
    ∀ l : List FailedEmbedding,
      (∀ a ∈ l, (p1 a).toNat + (p2 a).toNat + (p3 a).toNat = 1) →
      (l.filter p1).length + (l.filter p2).length + (l.filter p3).length = l.length := by
  intro l
  induction l with
  | nil =>
    intro _
    simp
  | cons x xs ih =>
    intro h
    have hx := h x (List.mem_cons_self x xs)
    have hxs := ih (fun a ha => h a (List.mem_cons_of_mem x ha))
    cases hp1 : p1 x <;> cases hp2 : p2 x <;> cases hp3 : p3 x <;>
      simp only [hp1, hp2, hp3, Bool.toNat_true, Bool.toNat_false] at hx <;>
      simp [List.filter_cons, hp1, hp2, hp3] <;> omega

theorem reprocess_exactly_one (embed : String → Except String (List ℚ)) (maxR : Nat)
    (w : World) (f : FailedEmbedding) :
    (reprocessSuccB embed maxR w f).toNat + (reprocessFailB embed maxR f).toNat +
      (reprocessSkipB embed maxR w f).toNat = 1 := by
  unfold reprocessSuccB reprocessFailB reprocessSkipB
  by_cases hc : f.retryCount < maxR
  · have hc' : ¬ maxR ≤ f.retryCount := Nat.not_le.mpr hc
    cases he : embedOkB embed f.content <;> cases hd : hasDoc f.memoryId w <;>
      simp [hc, hc', he, hd]
  · have hc' : maxR ≤ f.retryCount := Nat.not_lt.mp hc
    cases he : embedOkB embed f.content <;> cases hd : hasDoc f.memoryId w <;>
      simp [hc, hc', he, hd]

/-- C4 (amended): on a healthy store whose tracked failure ids are distinct,
`reprocessFailedEmbeddings(maxRetries)` reports as successful exactly the
entries below the retry cap whose re-embedding succeeds *and* whose memory is
still present in the store, and as failed exactly the capped entries (with a
"Max retries exceeded" message, no retry attempted) and the entries whose
re-embedding fails (with the provider's error). Entries whose re-embedding
succeeds but whose memory is absent are reported in *neither* list, so the
accounting is `|successful| + |failed| + |skipped| = totalProcessed`, not the
claimed `|successful| + |failed| = totalProcessed`. Capped entries remain
tracked unchanged; a failed retry increments `retryCount` and updates `error`;
a successful retry deletes the failure record and the stored document's
embedding becomes the freshly generated vector. -/
theorem reprocessFailedEmbeddings_spec (embed : String → Except String (List ℚ))
    (maxR : Nat) (w : World) (hw : w.writes = [])
    (hnd : (w.failed.map (fun f => f.memoryId)).Nodup) :
    (reprocessFailedEmbeddings embed maxR w).1.successful =
        (w.failed.filter (reprocessSuccB embed maxR w)).map (fun f => f.memoryId) ∧
    (reprocessFailedEmbeddings embed maxR w).1.failed =
        (w.failed.filter (reprocessFailB embed maxR)).map
          (fun f => (f.memoryId, reprocessFailMsg embed maxR f)) ∧
    (reprocessFailedEmbeddings embed maxR w).1.totalProcessed = w.failed.length ∧
    (reprocessFailedEmbeddings embed maxR w).1.successful.length +
        (reprocessFailedEmbeddings embed maxR w).1.failed.length +
        (w.failed.filter (reprocessSkipB embed maxR w)).length =
      (reprocessFailedEmbeddings embed maxR w).1.totalProcessed ∧
    (∀ f ∈ w.failed,
      lookupFailed f.memoryId (reprocessFailedEmbeddings embed maxR w).2.failed =
        reprocessFate embed maxR w f) ∧
    (∀ f ∈ w.failed, reprocessSuccB embed maxR w f = true →
      (docLookup f.memoryId (reprocessFailedEmbeddings embed maxR w).2.docs).map
        ChromaDocument.embedding = some (reprocessNewEmb embed f.content)) := by
  have hlk := lookupFailed_self_of_nodup w.failed hnd
  obtain ⟨h1, h2, _, _, _, h6, _, h8⟩ := reprocessGo_spec embed maxR w.failed w hw hnd hlk
  refine ⟨h1, h2, rfl, ?_, h6, h8⟩
  show (reprocessGo embed maxR w.failed w).1.1.length +
      (reprocessGo embed maxR w.failed w).1.2.length +
      (w.failed.filter (reprocessSkipB embed maxR w)).length = w.failed.length
  rw [h1, h2, List.length_map, List.length_map]
  exact filter3_partition (reprocessSuccB embed maxR w) (reprocessFailB embed maxR)
    (reprocessSkipB embed maxR w) w.failed (fun f _ => reprocess_exactly_one embed maxR w f)

/-- Witness for C4 at a concrete input: the orphaned-entry world. -/
theorem reprocessFailedEmbeddings_spec_witness :
    (wOrphan.writes = [] ∧ (wOrphan.failed.map (fun f => f.memoryId)).Nodup) ∧
    ((reprocessFailedEmbeddings embedOkOne 3 wOrphan).1.successful =
        (wOrphan.failed.filter (reprocessSuccB embedOkOne 3 wOrphan)).map
          (fun f => f.memoryId) ∧
    (reprocessFailedEmbeddings embedOkOne 3 wOrphan).1.failed =
        (wOrphan.failed.filter (reprocessFailB embedOkOne 3)).map
          (fun f => (f.memoryId, reprocessFailMsg embedOkOne 3 f)) ∧
    (reprocessFailedEmbeddings embedOkOne 3 wOrphan).1.totalProcessed =
        wOrphan.failed.length ∧
    (reprocessFailedEmbeddings embedOkOne 3 wOrphan).1.successful.length +
        (reprocessFailedEmbeddings embedOkOne 3 wOrphan).1.failed.length +
        (wOrphan.failed.filter (reprocessSkipB embedOkOne 3 wOrphan)).length =
      (reprocessFailedEmbeddings embedOkOne 3 wOrphan).1.totalProcessed ∧
    (∀ f ∈ wOrphan.failed,
      lookupFailed f.memoryId (reprocessFailedEmbeddings embedOkOne 3 wOrphan).2.failed =
        reprocessFate embedOkOne 3 wOrphan f) ∧
    (∀ f ∈ wOrphan.failed, reprocessSuccB embedOkOne 3 wOrphan f = true →
      (docLookup f.memoryId (reprocessFailedEmbeddings embedOkOne 3 wOrphan).2.docs).map
        ChromaDocument.embedding = some (reprocessNewEmb embedOkOne f.content))) :=
  ⟨⟨rfl, by decide⟩,
    reprocessFailedEmbeddings_spec embedOkOne 3 wOrphan rfl (by decide)⟩

end Vy
